import Mathlib

/-!
# SBIRscraper — verification of the harvest-and-synchronization engine

A shallow embedding of the core of the SBIRscraper repository
(`src/database.py`, `src/initial_download.py`, `src/update_checker.py`,
`config/config.py`) together with proofs of the specification's testable
properties.

Modelling conventions:
* Python values flowing through the scraper (JSON scalars, `None`) are the
  inductive `PyVal`; dictionaries are association lists `PyDict` (keys
  assumed distinct, first binding wins, insertion order preserved, as for
  Python dicts).
* Python floats are modelled as rationals (`Rat`); `float(...)` on a string
  is modelled for plain decimal literals (optional sign, digits, one dot),
  which covers every value the scraper's coercions are exercised with.
  `int(...)` on a string is modelled as optional sign plus digits.
* SQLite: the `awards` table is a list of rows (insertion order = rowid
  order).  `INSERT OR REPLACE` under the `UNIQUE(contract, agency,
  agency_tracking_number)` index deletes every conflicting row and appends
  the new one; per SQLite semantics two rows conflict only when all three
  indexed values are pairwise equal *and non-NULL* (NULL never equals
  NULL).  Identity values exercised here are strings, so SQLite's TEXT
  affinity conversion is the identity and is not modelled.
* Wall-clock time is a `Nat` (seconds); `datetime.now().isoformat()` is
  modelled as `toString` of that number and `fromisoformat` as its parse.
* Network effects are oracles: a page fetch is a function from offset to
  an optional raw page, an HTTP attempt outcome is a `FetchResp`.
-/

/-- A Python runtime value as it appears in the scraper's data path:
`None`, a string, an int, or a float (modelled as a rational). -/
inductive PyVal where
  | none : PyVal
  | str : String → PyVal
  | int : Int → PyVal
  | float : Rat → PyVal
deriving DecidableEq, Repr

/-- A Python dict: an association list with distinct keys, first binding
wins, insertion order preserved. -/
abbrev PyDict := List (String × PyVal)

namespace PyDict

/-- `k in d` for a Python dict. -/
def hasKey (d : PyDict) (k : String) : Bool :=
  d.any (fun kv => kv.1 = k)

/-- `d.get(k)` — the value bound to `k`, defaulting to `None`. -/
def getD (d : PyDict) (k : String) : PyVal :=
  match d.find? (fun kv => kv.1 = k) with
  | Option.some kv => kv.2
  | Option.none => PyVal.none

/-- `d[k] = v` — overwrite an existing binding in place, else append. -/
def setKey (d : PyDict) (k : String) (v : PyVal) : PyDict :=
  if d.hasKey k then d.map (fun kv => if kv.1 = k then (k, v) else kv)
  else d ++ [(k, v)]

end PyDict

/-- Python truthiness of a `PyVal` (`bool(v)`). -/
def PyVal.truthy : PyVal → Bool
  | PyVal.none => false
  | PyVal.str s => s ≠ ""
  | PyVal.int n => n ≠ 0
  | PyVal.float q => q ≠ 0

/-! ## Configuration constants (`config/config.py`) -/

def BATCH_SIZE : Nat := 1000
def MAX_RETRIES : Nat := 3
def RETRY_DELAY : Nat := 5
def PROGRESS_UPDATE_INTERVAL : Nat := 10
def CHECKPOINT_INTERVAL : Nat := 50
def UPDATE_CHECK_DAYS : Nat := 7
def UPDATE_LOOKBACK_DAYS : Nat := 30

def REQUIRED_FIELDS : List String :=
  ["firm", "award_title", "agency", "phase", "program",
   "award_amount", "proposal_award_date", "contract"]

/-! ## Numeric string parsing (Python `float(...)` / `int(...)` on the
values the scraper feeds them) -/

/-- Digits of a decimal string, most significant first, as a `Nat`. -/
def digitsToNat (l : List Char) : Nat :=
  l.foldl (fun n c => n * 10 + (c.toNat - 48)) 0

/-- Parse an unsigned decimal literal: digits with at most one dot and at
least one digit overall (`"12"`, `"12.5"`, `".5"`, `"5."`). -/
def parseUnsignedRat? (l : List Char) : Option Rat :=
  let ip := l.takeWhile Char.isDigit
  let rest := l.dropWhile Char.isDigit
  match rest with
  | [] => if ip.isEmpty then Option.none else Option.some ((digitsToNat ip : Int) : Rat)
  | c :: fp =>
    if c = '.' ∧ fp.all Char.isDigit ∧ ¬(ip.isEmpty ∧ fp.isEmpty) then
      Option.some (((digitsToNat ip : Int) : Rat) +
        ((digitsToNat fp : Int) : Rat) / ((10 : Rat) ^ fp.length))
    else Option.none

/-- Python `float(s)` restricted to plain signed decimal literals (no
exponent, no `inf`/`nan`, no surrounding whitespace — none of which occur
in the scraper's inputs). `Option.none` models `ValueError`. -/
def parseFloat? (s : String) : Option Rat :=
  match s.data with
  | '-' :: rest => (parseUnsignedRat? rest).map (fun q => -q)
  | '+' :: rest => parseUnsignedRat? rest
  | l => parseUnsignedRat? l

/-- Python `int(s)`: optional sign followed by digits only (a decimal
point or a thousands separator raises `ValueError`, modelled as
`Option.none`). -/
def parseInt? (s : String) : Option Int :=
  let core : List Char → Option Int := fun l =>
    if l.isEmpty ∨ ¬ l.all Char.isDigit then Option.none
    else Option.some (digitsToNat l : Int)
  match s.data with
  | '-' :: rest => (core rest).map (fun n => -n)
  | '+' :: rest => core rest
  | l => core l

/-- Truncation toward zero, as Python `int(float)`. -/
def ratTrunc (q : Rat) : Int :=
  if 0 ≤ q then q.floor else -((-q).floor)

/-- `s.replace(',', '')`: removing every occurrence of a single character
is exactly a character filter. -/
def stripCommas (s : String) : String :=
  String.mk (s.data.filter (fun c => c ≠ ','))

/-- Python `float(str(v).replace(',', ''))` on a `PyVal`; `Option.none`
models `ValueError`/`TypeError`. -/
def pyFloatOf : PyVal → Option Rat
  | PyVal.int n => Option.some (n : Rat)
  | PyVal.float q => Option.some q
  | PyVal.str s => parseFloat? (stripCommas s)
  | PyVal.none => Option.none

/-- Python `int(v)` on a `PyVal`; `Option.none` models
`ValueError`/`TypeError`. -/
def pyIntOf : PyVal → Option Int
  | PyVal.int n => Option.some n
  | PyVal.float q => Option.some (ratTrunc q)
  | PyVal.str s => parseInt? s
  | PyVal.none => Option.none

/-! ## Validator (`SBIRInitialDownloader.validate_batch`) -/

/-- A raw award passes `validate_batch`'s checks: every required field is
present as a key, and `firm` and `award_title` are truthy. -/
def validAward (a : PyDict) : Bool :=
  (REQUIRED_FIELDS.filter (fun f => ¬ a.hasKey f)).isEmpty
    && (a.getD "firm").truthy && (a.getD "award_title").truthy

/-- `validate_batch`: the loop of `initial_download.py` lines 107–125,
with its two `continue` branches; accepted awards are appended unchanged
in order. -/
def validate_batch : List PyDict → List PyDict
  | [] => []
  | a :: rest =>
    if ¬ (REQUIRED_FIELDS.filter (fun f => ¬ a.hasKey f)).isEmpty then
      validate_batch rest
    else if ¬ ((a.getD "firm").truthy && (a.getD "award_title").truthy) then
      validate_batch rest
    else
      a :: validate_batch rest

/-! ## Normalizer (`SBIRDatabase._process_award_for_db`) -/

/-- Opaque stand-in for `json.dumps(award)`: the raw payload serialized to
a string the core never parses again. -/
def encodeVal : PyVal → String
  | PyVal.none => "null"
  | PyVal.str s => "s:" ++ s
  | PyVal.int n => "i:" ++ toString n
  | PyVal.float q => "f:" ++ toString q.num ++ "/" ++ toString q.den

/-- Opaque stand-in for `json.dumps` on a dict. -/
def encodeDict (d : PyDict) : String :=
  String.intercalate ";" (d.map (fun kv => kv.1 ++ "=" ++ encodeVal kv.2))

/-- The integer-typed columns coerced by `_process_award_for_db`. -/
def INT_FIELDS : List String :=
  ["solicitation_year", "award_year", "number_employees", "award_link"]

/-- Coerce one integer field in place: only when the key is present and
its value is not `None`; `int(...)` failure stores `None`. -/
def coerceIntField (p : PyDict) (f : String) : PyDict :=
  if p.hasKey f ∧ p.getD f ≠ PyVal.none then
    match pyIntOf (p.getD f) with
    | Option.some n => p.setKey f (PyVal.int n)
    | Option.none => p.setKey f PyVal.none
  else p

/-- The `award_amount` coercion statement of `_process_award_for_db`:
when the key is present and its value truthy, re-bind it to
`float(str(v).replace(',', ''))`, or to `None` when that parse fails. -/
def amountStep (processed : PyDict) : PyDict :=
  if processed.hasKey "award_amount" ∧ (processed.getD "award_amount").truthy then
    match pyFloatOf (processed.getD "award_amount") with
    | Option.some q => processed.setKey "award_amount" (PyVal.float q)
    | Option.none => processed.setKey "award_amount" PyVal.none
  else processed

/-- `_process_award_for_db` (`database.py` lines 192–215): coerce
`award_amount` to float when present and truthy (comma-stripped; `None` on
parse failure), store the raw payload under `raw_data`, then coerce the
integer fields when present and non-`None`. -/
def _process_award_for_db (award : PyDict) : PyDict :=
  INT_FIELDS.foldl coerceIntField
    ((amountStep award).setKey "raw_data" (PyVal.str (encodeDict award)))

/-! ## Storage Gateway (`SBIRDatabase`) -/

/-- The named columns bound by `insert_awards`'s SQL statement, in order
(41 award fields plus `raw_data`; `updated_at` is set to
`CURRENT_TIMESTAMP` separately and `created_at`/`id` take their column
defaults). -/
def AWARD_COLUMNS : List String :=
  ["firm", "award_title", "agency", "branch", "phase", "program",
   "agency_tracking_number", "contract", "proposal_award_date",
   "contract_end_date", "solicitation_number", "solicitation_year",
   "topic_code", "award_year", "award_amount", "duns", "uei",
   "hubzone_owned", "socially_economically_disadvantaged", "women_owned",
   "number_employees", "company_url", "address1", "address2", "city",
   "state", "zip", "poc_name", "poc_title", "poc_phone", "poc_email",
   "pi_name", "pi_title", "pi_phone", "pi_email", "ri_name", "ri_poc_name",
   "ri_poc_phone", "research_area_keywords", "abstract", "award_link",
   "raw_data"]

/-- One row of the `awards` table: the bound column values plus the two
system-managed timestamps.  `INSERT OR REPLACE` re-inserts a fresh row, so
a replacement refreshes both timestamps. -/
structure Row where
  data : PyDict
  created_at : Nat
  updated_at : Nat
deriving DecidableEq, Repr

/-- The identity triple `(contract, agency, agency_tracking_number)` of a
bound row. -/
def Row.identity (r : Row) : PyVal × PyVal × PyVal :=
  (r.data.getD "contract", r.data.getD "agency", r.data.getD "agency_tracking_number")

/-- The identity triple of a raw award dict. -/
def awardIdentity (a : PyDict) : PyVal × PyVal × PyVal :=
  (a.getD "contract", a.getD "agency", a.getD "agency_tracking_number")

/-- SQLite conflict on the `UNIQUE(contract, agency,
agency_tracking_number)` index: all three values pairwise equal and
non-NULL (SQLite treats every NULL as distinct from every other NULL). -/
def idConflict (x y : PyVal × PyVal × PyVal) : Bool :=
  x.1 ≠ PyVal.none ∧ x.1 = y.1 ∧
  x.2.1 ≠ PyVal.none ∧ x.2.1 = y.2.1 ∧
  x.2.2 ≠ PyVal.none ∧ x.2.2 = y.2.2

/-- The database: the `awards` table (rowid order) and the
`scraper_metadata` key→value table. -/
structure DB where
  awards : List Row
  metadata : List (String × String)
deriving DecidableEq, Repr

def emptyDB : DB := ⟨[], []⟩

/-- Extract the named-parameter bindings of one processed award; a key
absent from the dict makes the whole `executemany` raise
(`ProgrammingError`), modelled as `Option.none`. -/
def bindAward (p : PyDict) : Option PyDict :=
  if AWARD_COLUMNS.all (fun c => p.hasKey c) then
    Option.some (AWARD_COLUMNS.map (fun c => (c, p.getD c)))
  else Option.none

/-- `INSERT OR REPLACE` of one bound row: delete every conflicting stored
row, append the new row at the end (fresh rowid). -/
def upsertRow (db : DB) (r : Row) : DB :=
  { db with awards := db.awards.filter (fun r0 => ¬ idConflict r0.identity r.identity) ++ [r] }

/-- `insert_awards` (`database.py` lines 145–190): empty batch returns 0
without touching storage; otherwise every award is processed by
`_process_award_for_db`, all statements are bound and executed
(`INSERT OR REPLACE`, in order), and the cursor's rowcount — one per
statement — is returned.  A binding failure raises before the commit, so
the transaction is rolled back: modelled as `Option.none` with the
database unchanged. -/
def insert_awards (awards : List PyDict) (db : DB) (now : Nat) : Option (DB × Nat) :=
  if awards.isEmpty then Option.some (db, 0)
  else
    match (awards.map _process_award_for_db).mapM bindAward with
    | Option.none => Option.none
    | Option.some bound =>
      Option.some ((bound.map (fun d => Row.mk d now now)).foldl upsertRow db, awards.length)

/-- `get_record_count` happy path: `SELECT COUNT(*) FROM awards`. -/
def get_record_count (db : DB) : Nat := db.awards.length

/-- `set_metadata`: `INSERT OR REPLACE` on the unique `key` column. -/
def set_metadata (db : DB) (k v : String) : DB :=
  { db with metadata := db.metadata.filter (fun kv => kv.1 ≠ k) ++ [(k, v)] }

/-- `get_metadata` happy path: lookup by key, `None` when absent. -/
def get_metadata (db : DB) (k : String) : Option String :=
  (db.metadata.find? (fun kv => kv.1 = k)).map (fun kv => kv.2)

/-- `get_latest_date` happy path: maximum string value of
`proposal_award_date` over rows where it is non-NULL (the column holds
strings; SQLite TEXT ordering is string ordering), with SQL's `MAX` of an
empty set (NULL) and a falsy maximum both reported as `None`. -/
def get_latest_date (db : DB) : Option String :=
  let dates := db.awards.filterMap (fun r =>
    match r.data.getD "proposal_award_date" with
    | PyVal.str s => Option.some s
    | _ => Option.none)
  match dates.max? with
  | Option.none => Option.none
  | Option.some m => if m = "" then Option.none else Option.some m

/-! ### Fault-injected Gateway operations

Each public Gateway operation wraps its SQL in `try/except sqlite3.Error`.
The `fault` flag injects a storage fault into that SQL call; the
definitions below follow the source's `except` branches: `insert_awards`,
`set_metadata` and `create_tables` re-`raise`, while `get_record_count`
returns `0`, and `get_latest_date` / `get_metadata` return `None`. -/

/-- `get_record_count` under an injected storage fault (`database.py`
lines 217–226): the `except` branch returns `0`. -/
def get_record_countF (db : DB) (fault : Bool) : Nat :=
  if fault then 0 else get_record_count db

/-- `get_latest_date` under an injected storage fault (lines 228–241):
the `except` branch returns `None`. -/
def get_latest_dateF (db : DB) (fault : Bool) : Option String :=
  if fault then Option.none else get_latest_date db

/-- `get_metadata` under an injected storage fault (lines 256–265): the
`except` branch returns `None`. -/
def get_metadataF (db : DB) (k : String) (fault : Bool) : Option String :=
  if fault then Option.none else get_metadata db k

/-- `set_metadata` under an injected storage fault (lines 243–254): the
`except` branch re-raises, modelled as `Except.error`. -/
def set_metadataF (db : DB) (k v : String) (fault : Bool) : Except Unit DB :=
  if fault then Except.error () else Except.ok (set_metadata db k v)

/-- `insert_awards` under an injected storage fault (lines 145–190): the
`except` branch re-raises, modelled as `Except.error`; the transaction is
uncommitted so storage is unchanged. -/
def insert_awardsF (awards : List PyDict) (db : DB) (now : Nat) (fault : Bool) :
    Except Unit (DB × Nat) :=
  if fault then Except.error ()
  else match insert_awards awards db now with
    | Option.none => Except.error ()
    | Option.some r => Except.ok r

/-! ## Paginated Fetcher (`SBIRInitialDownloader.fetch_batch`) -/

/-- The body of one successfully parsed HTTP response: a bare JSON array,
an object (whose `docs` key may be absent), or some other JSON value. -/
inductive ApiData where
  | list (l : List PyDict)
  | dict (docs : Option (List PyDict))
  | other
deriving DecidableEq

/-- Outcome of one HTTP attempt: a transport-level failure
(`requests.exceptions.RequestException`: connection error, timeout, or the
non-2xx raised by `raise_for_status`), a body that fails to parse as JSON
(`json.JSONDecodeError`), or a parsed body. -/
inductive FetchResp where
  | transportErr
  | badJson
  | ok (d : ApiData)
deriving DecidableEq

/-- Response-shape normalization of `fetch_batch`: a bare list is taken
as-is, a dict yields `data.get('docs', [])`, any other shape returns
`None`. -/
def normalizeApiData : ApiData → Option (List PyDict)
  | ApiData.list l => Option.some l
  | ApiData.dict docs => Option.some (docs.getD [])
  | ApiData.other => Option.none

/-- The `for attempt in range(MAX_RETRIES)` loop of `fetch_batch`
(`initial_download.py` lines 63–105), consuming attempt outcomes from the
oracle `responses` (indexed by attempt number).  Returns the fetched page
(`None` models the function returning `None` to its caller), the number of
attempts issued, and the list of inter-attempt sleep durations
(`time.sleep(RETRY_DELAY)` is executed only when a transport failure is
not the final attempt; a JSON failure or an unexpected shape returns
immediately). -/
def fetchAttempts (responses : Nat → FetchResp) :
    Nat → Nat → Option (List PyDict) × Nat × List Nat
  | _, 0 => (Option.none, 0, [])
  | idx, remaining + 1 =>
    match responses idx with
    | FetchResp.transportErr =>
      if remaining = 0 then (Option.none, 1, [])
      else
        let (res, n, sleeps) := fetchAttempts responses (idx + 1) remaining
        (res, n + 1, RETRY_DELAY :: sleeps)
    | FetchResp.badJson => (Option.none, 1, [])
    | FetchResp.ok d => (normalizeApiData d, 1, [])

/-- `fetch_batch` with its attempt/sleep trace. -/
def fetch_batchT (responses : Nat → FetchResp) : Option (List PyDict) × Nat × List Nat :=
  fetchAttempts responses 0 MAX_RETRIES

/-- `fetch_batch`'s return value alone. -/
def fetch_batch (responses : Nat → FetchResp) : Option (List PyDict) :=
  (fetch_batchT responses).1

/-! ## Full-Harvest Controller (`SBIRInitialDownloader.download_all_awards`) -/

/-- The mutable state of the download loop (`initial_download.py` lines
145–197): the current offset, the consecutive-empty-batch counter, the
database, and the running `total_downloaded`.  `iter` counts loop
iterations (used to index the cancellation oracle and to stamp insert
times), and `trace` is a ghost log of the offsets passed to
`fetch_batch`. -/
structure HarvestState where
  offset : Nat
  streak : Nat
  db : DB
  total : Nat
  iter : Nat
  trace : List Nat
deriving Repr

/-- Outcome of one iteration of the download loop body. -/
inductive IterOut where
  | next (s : HarvestState)      -- loop continues
  | fetchFail (s : HarvestState) -- `fetch_batch` returned `None`: `return False`
  | complete (s : HarvestState)  -- third consecutive empty batch: `break`
  | dbError (s : HarvestState)   -- `insert_awards` raised: `return False`
deriving Repr

/-- The checkpoint writes of lines 186–190: every
`CHECKPOINT_INTERVAL * BATCH_SIZE` offsets, persist the offset and the
current time to metadata. -/
def checkpointWrites (db : DB) (offset t : Nat) : DB :=
  if offset % (CHECKPOINT_INTERVAL * BATCH_SIZE) = 0 then
    set_metadata (set_metadata db "last_download_offset" (toString offset))
      "last_download_time" (toString t)
  else db

/-- One iteration of the download loop body (lines 149–197), `t0` being
the wall clock at iteration 0 (one iteration per time unit).  Every
outcome records the fetched offset in the ghost trace; the streak is reset
to zero as soon as a non-empty page arrives, before validation. -/
def downloadStep : Option (List PyDict) → Nat → HarvestState → IterOut
  | Option.none, _, s => IterOut.fetchFail { s with trace := s.trace ++ [s.offset] }
  | Option.some awards, t0, s =>
    if awards.length = 0 then
      if 3 ≤ s.streak + 1 then
        IterOut.complete { s with streak := s.streak + 1, trace := s.trace ++ [s.offset] }
      else
        IterOut.next
          { s with streak := s.streak + 1, offset := s.offset + BATCH_SIZE,
                   iter := s.iter + 1, trace := s.trace ++ [s.offset] }
    else
      if (validate_batch awards).isEmpty then
        IterOut.next
          { s with streak := 0, offset := s.offset + awards.length,
                   iter := s.iter + 1, trace := s.trace ++ [s.offset] }
      else
        match insert_awards (validate_batch awards) s.db (t0 + s.iter) with
        | Option.none =>
          IterOut.dbError { s with streak := 0, trace := s.trace ++ [s.offset] }
        | Option.some (db, inserted) =>
          IterOut.next
            { s with streak := 0, offset := s.offset + awards.length,
                     db := checkpointWrites db (s.offset + awards.length) (t0 + s.iter),
                     total := s.total + inserted, iter := s.iter + 1,
                     trace := s.trace ++ [s.offset] }

/-- One iteration of the loop body applied to the fetched page at the
current offset. -/
def downloadIter (fetch : Nat → Option (List PyDict)) (t0 : Nat)
    (s : HarvestState) : IterOut :=
  downloadStep (fetch s.offset) t0 s

/-- How the `while` loop ended. -/
inductive LoopOutcome where
  | completed (s : HarvestState)   -- `break` on the empty-batch signal
  | fetchAbort (s : HarvestState)  -- `return False` on fetch failure
  | dbAbort (s : HarvestState)     -- `return False` on a database error
  | interrupted (s : HarvestState) -- `while not self.interrupted` exited
deriving Repr

/-- The `while not self.interrupted` loop, with the cancellation oracle
`intr` giving the interrupt flag observed at the top of each iteration.
Fuel bounds the number of iterations; `Option.none` means the fuel ran
out before the loop ended (never reached in any property below). -/
def downloadLoop (fetch : Nat → Option (List PyDict)) (intr : Nat → Bool) (t0 : Nat) :
    Nat → HarvestState → Option LoopOutcome
  | 0, _ => Option.none
  | fuel + 1, s =>
    if intr s.iter then Option.some (LoopOutcome.interrupted s)
    else
      match downloadIter fetch t0 s with
      | IterOut.next s' => downloadLoop fetch intr t0 fuel s'
      | IterOut.fetchFail s' => Option.some (LoopOutcome.fetchAbort s')
      | IterOut.complete s' => Option.some (LoopOutcome.completed s')
      | IterOut.dbError s' => Option.some (LoopOutcome.dbAbort s')

/-- `download_all_awards` (lines 127–214): create tables (schema creation
is idempotent and not modelled on the state), compute the resume offset
from the stored record count, run the loop, then write the final metadata
and map the loop outcome to the boolean run status.  Returns the status
and the final state (`Option.none` only on fuel exhaustion). -/
def download_all_awards (fetch : Nat → Option (List PyDict)) (intr : Nat → Bool)
    (db0 : DB) (resume : Bool) (t0 fuel : Nat) : Option (Bool × HarvestState) :=
  let existing := get_record_count db0
  let start := if resume ∧ 0 < existing then existing else 0
  let total0 := if resume ∧ 0 < existing then existing else 0
  let s0 : HarvestState := ⟨start, 0, db0, total0, 0, []⟩
  match downloadLoop fetch intr t0 fuel s0 with
  | Option.none => Option.none
  | Option.some (LoopOutcome.fetchAbort s) => Option.some (false, s)
  | Option.some (LoopOutcome.dbAbort s) => Option.some (false, s)
  | Option.some (LoopOutcome.completed s) =>
    let db := set_metadata (set_metadata s.db "initial_download_completed" (toString (t0 + s.iter)))
      "total_records_downloaded" (toString s.total)
    if intr s.iter then
      Option.some (false, { s with db := set_metadata db "download_interrupted" "true" })
    else
      Option.some (true, { s with db := set_metadata db "download_interrupted" "false" })
  | Option.some (LoopOutcome.interrupted s) =>
    let db := set_metadata (set_metadata s.db "initial_download_completed" (toString (t0 + s.iter)))
      "total_records_downloaded" (toString s.total)
    Option.some (false, { s with db := set_metadata db "download_interrupted" "true" })

/-! ## Incremental Sync Controller (`SBIRUpdateChecker`) -/

/-- `get_existing_contracts` (`update_checker.py` lines 77–92):
`SELECT DISTINCT contract FROM awards WHERE contract IS NOT NULL`, as the
deduplicated list of non-NULL stored `contract` values. -/
def get_existing_contracts (db : DB) : List PyVal :=
  ((db.awards.map (fun r => r.data.getD "contract")).filter
    (fun v => v ≠ PyVal.none)).dedup

/-- `identify_new_awards` (lines 173–183): keep the fetched awards whose
`contract` value is truthy and not among the existing contract values. -/
def identify_new_awards (recent : List PyDict) (existing : List PyVal) : List PyDict :=
  recent.filter (fun a =>
    (a.getD "contract").truthy && decide ((a.getD "contract") ∉ existing))

/-- `get_last_update_date` (lines 48–58): read the `last_update_check`
metadata and parse it as a timestamp; a missing key or an unparseable
value (the `except` branch) yields `None`. -/
def get_last_update_date (db : DB) : Option Nat :=
  match get_metadata db "last_update_check" with
  | Option.none => Option.none
  | Option.some s =>
    (parseInt? s).bind (fun n => if 0 ≤ n then Option.some n.toNat else Option.none)

/-- `(datetime.now() - last_update).days`: floor division of the signed
difference in seconds by 86400 (`timedelta.days` floors). -/
def daysSince (now last : Nat) : Int :=
  Int.fdiv ((now : Int) - (last : Int)) 86400

/-- `should_check_for_updates` (lines 60–75): check when no previous
timestamp exists or when it is at least `UPDATE_CHECK_DAYS` days old. -/
def should_check_for_updates (db : DB) (now : Nat) : Bool :=
  match get_last_update_date db with
  | Option.none => true
  | Option.some last => (UPDATE_CHECK_DAYS : Int) ≤ daysSince now last

/-- `update_metadata` (lines 231–239): persist the check time and the
new-record count. -/
def update_metadata (db : DB) (now count : Nat) : DB :=
  set_metadata (set_metadata db "last_update_check" (toString now))
    "last_update_new_records" (toString count)

/-- `check_for_updates` (lines 185–229), with the result of
`fetch_recent_awards` supplied as the oracle `recent` (the in-window fetch
is a network interaction).  Returns the boolean status, the resulting
database, the reported `new_records_found`, and a ghost flag recording
whether the run proceeded past the schedule gate (i.e. performed the
fetch). -/
def check_for_updates (recent : List PyDict) (force : Bool) (db : DB) (now : Nat) :
    Bool × DB × Nat × Bool :=
  if ¬ force ∧ ¬ should_check_for_updates db now then (true, db, 0, false)
  else
    let existing := get_existing_contracts db
    if recent.isEmpty then (true, update_metadata db now 0, 0, true)
    else
      let newAwards := identify_new_awards recent existing
      if newAwards.isEmpty then (true, update_metadata db now 0, 0, true)
      else
        match insert_awards newAwards db now with
        | Option.none => (false, db, 0, true)
        | Option.some (db', inserted) => (true, update_metadata db' now inserted, inserted, true)

/-! ## Concrete award payloads used by the witnesses and counterexamples -/

/-- A full raw award payload carrying every column bound by
`insert_awards` (with `raw_data` supplied by `_process_award_for_db`),
with the identity triple and the monetary amount chosen per test. -/
def mkAward (contract agency atn amount : PyVal) : PyDict :=
  (AWARD_COLUMNS.filter (fun c => c ≠ "raw_data")).map (fun c =>
    (c, if c = "contract" then contract
        else if c = "agency" then agency
        else if c = "agency_tracking_number" then atn
        else if c = "award_amount" then amount
        else if c = "firm" then PyVal.str "Acme Research"
        else if c = "award_title" then PyVal.str "Widget Study"
        else if c = "phase" then PyVal.str "Phase I"
        else if c = "program" then PyVal.str "SBIR"
        else if c = "proposal_award_date" then PyVal.str "2025-01-01"
        else PyVal.none))

/-! ## Dictionary lemmas -/

theorem PyDict.getD_cons (kv : String × PyVal) (d : PyDict) (k : String) :
    PyDict.getD (kv :: d) k = if kv.1 = k then kv.2 else PyDict.getD d k := by
  unfold PyDict.getD
  by_cases h : kv.1 = k
  · rw [List.find?_cons_of_pos _ (by simpa using h), if_pos h]
  · rw [List.find?_cons_of_neg _ (by simpa using h), if_neg h]

theorem PyDict.hasKey_cons (kv : String × PyVal) (d : PyDict) (k : String) :
    PyDict.hasKey (kv :: d) k = (kv.1 = k || PyDict.hasKey d k) := by
  simp [PyDict.hasKey]

theorem PyDict.getD_eq_none_of_not_hasKey (d : PyDict) (k : String)
    (h : PyDict.hasKey d k = false) : PyDict.getD d k = PyVal.none := by
  induction d with
  | nil => rfl
  | cons kv rest ih =>
    rw [PyDict.hasKey_cons, Bool.or_eq_false_iff] at h
    rw [PyDict.getD_cons, if_neg (by simpa using h.1)]
    exact ih h.2

theorem PyDict.getD_setKey_self (d : PyDict) (k : String) (v : PyVal) :
    PyDict.getD (PyDict.setKey d k v) k = v := by
  unfold PyDict.setKey
  by_cases h : PyDict.hasKey d k
  · rw [if_pos h]
    induction d with
    | nil => simp [PyDict.hasKey] at h
    | cons kv rest ih =>
      by_cases hk : kv.1 = k
      · simp only [List.map, if_pos hk, PyDict.getD_cons]
        simp
      · rw [PyDict.hasKey_cons, Bool.or_eq_true] at h
        rcases h with h | h
        · exact absurd (by simpa using h) hk
        · simp only [List.map, if_neg hk, PyDict.getD_cons, if_neg hk]
          exact ih h
  · rw [if_neg h]
    induction d with
    | nil => simp [PyDict.getD_cons]
    | cons kv rest ih =>
      simp only [PyDict.hasKey_cons, Bool.or_eq_true, not_or, decide_eq_true_eq] at h
      rw [List.cons_append, PyDict.getD_cons, if_neg h.1]
      exact ih (by simpa using h.2)

theorem PyDict.getD_setKey_ne (d : PyDict) (k k' : String) (v : PyVal) (h : k' ≠ k) :
    PyDict.getD (PyDict.setKey d k v) k' = PyDict.getD d k' := by
  unfold PyDict.setKey
  by_cases hk : PyDict.hasKey d k
  · rw [if_pos hk]
    clear hk
    induction d with
    | nil => rfl
    | cons kv rest ih =>
      by_cases hkv : kv.1 = k
      · simp only [List.map, if_pos hkv, PyDict.getD_cons]
        rw [if_neg (show ¬((k, v).1 = k') from fun hc => h (by simpa using hc.symm)),
            if_neg (show ¬(kv.1 = k') from fun hc => h (by rw [← hc, hkv]))]
        exact ih
      · simp only [List.map, if_neg hkv, PyDict.getD_cons]
        by_cases hkv' : kv.1 = k'
        · rw [if_pos hkv', if_pos hkv']
        · rw [if_neg hkv', if_neg hkv']
          exact ih
  · rw [if_neg hk]
    induction d with
    | nil =>
      simp only [List.nil_append, PyDict.getD_cons]
      rw [if_neg (show ¬((k, v).1 = k') from fun hc => h (by simpa using hc.symm))]
    | cons kv rest ih =>
      simp only [PyDict.hasKey_cons, Bool.or_eq_true, not_or, decide_eq_true_eq] at hk
      rw [List.cons_append, PyDict.getD_cons, PyDict.getD_cons]
      by_cases hkv' : kv.1 = k'
      · rw [if_pos hkv', if_pos hkv']
      · rw [if_neg hkv', if_neg hkv']
        exact ih (by simpa using hk.2)

/-! ## Validator lemmas and claim C9 -/

theorem validate_batch_eq_filter (awards : List PyDict) :
    validate_batch awards = awards.filter validAward := by
  induction awards with
  | nil => rfl
  | cons a rest ih =>
    rw [List.filter_cons]
    unfold validate_batch
    by_cases h1 : (REQUIRED_FIELDS.filter (fun f => ¬ PyDict.hasKey a f)).isEmpty = true
    · by_cases h2 : (PyDict.getD a "firm").truthy = true
      · by_cases h3 : (PyDict.getD a "award_title").truthy = true
        · have hv : validAward a = true := by unfold validAward; rw [h1, h2, h3]; rfl
          rw [if_neg (not_not_intro h1), if_neg (not_not_intro (by rw [h2, h3]; rfl)),
            if_pos hv, ih]
        · have h3' : (PyDict.getD a "award_title").truthy = false := by simpa using h3
          have hv : validAward a = false := by unfold validAward; rw [h1, h2, h3']; rfl
          rw [if_neg (not_not_intro h1), if_pos (by simp [h3']), if_neg (by simp [hv]), ih]
      · have h2' : (PyDict.getD a "firm").truthy = false := by simpa using h2
        have hv : validAward a = false := by unfold validAward; rw [h1, h2']; rfl
        rw [if_neg (not_not_intro h1), if_pos (by simp [h2']), if_neg (by simp [hv]), ih]
    · have h1' : (REQUIRED_FIELDS.filter (fun f => ¬ PyDict.hasKey a f)).isEmpty = false := by
        simpa using h1
      have hv : validAward a = false := by unfold validAward; rw [h1']; rfl
      rw [if_pos h1, if_neg (by simp [hv]), ih]

/-- The claim's rejection condition, stated from the spec's words: the
payload is missing at least one required field, or its `firm` or
`award_title` field is empty (Python-empty, i.e. falsy). -/
def specRejected (a : PyDict) : Prop :=
  (∃ f ∈ REQUIRED_FIELDS, PyDict.hasKey a f = false) ∨
    (PyVal.truthy (PyDict.getD a "firm") = false) ∨
    (PyVal.truthy (PyDict.getD a "award_title") = false)

instance (a : PyDict) : Decidable (specRejected a) := by
  unfold specRejected
  infer_instance

theorem validAward_iff_not_specRejected (a : PyDict) :
    validAward a = true ↔ ¬ specRejected a := by
  unfold validAward specRejected
  rw [Bool.and_eq_true, Bool.and_eq_true, List.isEmpty_iff, List.filter_eq_nil_iff]
  constructor
  · rintro ⟨⟨hall, hfirm⟩, htitle⟩
    push_neg
    refine ⟨fun f hf => ?_, by simp [hfirm], by simp [htitle]⟩
    have := hall f hf
    simp only [decide_eq_true_eq, not_not] at this
    simp [this]
  · intro h
    push_neg at h
    obtain ⟨hall, hfirm, htitle⟩ := h
    refine ⟨⟨fun f hf => ?_, by simpa using hfirm⟩, by simpa using htitle⟩
    have := hall f hf
    simp only [decide_eq_true_eq, not_not]
    simpa using this

theorem validAward_eq_decide (a : PyDict) :
    validAward a = decide (¬ specRejected a) := by
  by_cases hs : specRejected a
  · have h1 : decide (¬ specRejected a) = false := by simp [hs]
    have h2 : validAward a = false := by
      by_contra hc
      exact ((validAward_iff_not_specRejected a).mp (by simpa using hc)) hs
    rw [h1, h2]
  · have h1 : decide (¬ specRejected a) = true := by simp [hs]
    rw [h1, (validAward_iff_not_specRejected a).mpr hs]

/-- C9 — `validate_batch` excludes exactly the payloads missing at least
one required field or with an empty `firm`/`award_title`; every payload
satisfying the contract is included with none of its fields modified, and
the relative order of accepted payloads is preserved (the output is the
order-preserving sublist of the input filtered by non-rejection). -/
theorem C9_validation_completeness (awards : List PyDict) :
    validate_batch awards = awards.filter (fun a => decide (¬ specRejected a))
      ∧ (∀ a, a ∈ validate_batch awards ↔ a ∈ awards ∧ ¬ specRejected a)
      ∧ List.Sublist (validate_batch awards) awards := by
  have hfilter : validate_batch awards = awards.filter (fun a => decide (¬ specRejected a)) := by
    rw [validate_batch_eq_filter]
    exact List.filter_congr (fun a _ => validAward_eq_decide a)
  refine ⟨hfilter, fun a => ?_, ?_⟩
  · rw [hfilter, List.mem_filter]
    simp
  · rw [validate_batch_eq_filter]
    exact List.filter_sublist awards

/-! ## Normalizer lemmas -/

theorem PyDict.hasKey_map_replace_ne (d : PyDict) (k k' : String) (v : PyVal)
    (h : ¬ k = k') :
    PyDict.hasKey (d.map (fun kv => if kv.1 = k then (k, v) else kv)) k'
      = PyDict.hasKey d k' := by
  induction d with
  | nil => rfl
  | cons kv rest ih =>
    by_cases hkv : kv.1 = k
    · simp only [List.map, if_pos hkv]
      rw [PyDict.hasKey_cons, PyDict.hasKey_cons, ih]
      have : decide ((k, v).1 = k') = decide (kv.1 = k') := by
        simp [h, hkv ▸ h]
      rw [this]
    · simp only [List.map, if_neg hkv]
      rw [PyDict.hasKey_cons, PyDict.hasKey_cons, ih]

theorem PyDict.hasKey_map_replace_self (d : PyDict) (k : String) (v : PyVal)
    (h : PyDict.hasKey d k = true) :
    PyDict.hasKey (d.map (fun kv => if kv.1 = k then (k, v) else kv)) k = true := by
  induction d with
  | nil => simp [PyDict.hasKey] at h
  | cons kv rest ih =>
    by_cases hkv : kv.1 = k
    · simp only [List.map, if_pos hkv]
      rw [PyDict.hasKey_cons]
      simp
    · simp only [List.map, if_neg hkv]
      rw [PyDict.hasKey_cons] at h ⊢
      rcases (Bool.or_eq_true _ _).mp h with h' | h'
      · exact absurd (by simpa using h') hkv
      · rw [ih h']
        simp

theorem PyDict.hasKey_setKey (d : PyDict) (k : String) (v : PyVal) (k' : String) :
    PyDict.hasKey (PyDict.setKey d k v) k' = (PyDict.hasKey d k' || decide (k = k')) := by
  unfold PyDict.setKey
  by_cases h : PyDict.hasKey d k
  · rw [if_pos h]
    by_cases hkk' : k = k'
    · subst hkk'
      rw [PyDict.hasKey_map_replace_self d k v h, h]
      simp
    · rw [PyDict.hasKey_map_replace_ne d k k' v hkk']
      simp [hkk']
  · rw [if_neg h]
    induction d with
    | nil => simp [PyDict.hasKey]
    | cons kv rest ih =>
      rw [PyDict.hasKey_cons] at h
      simp only [Bool.or_eq_true, not_or] at h
      rw [List.cons_append, PyDict.hasKey_cons, PyDict.hasKey_cons,
        ih (by simpa using h.2)]
      simp [Bool.or_assoc]

theorem coerceIntField_hasKey (p : PyDict) (f k : String) :
    PyDict.hasKey (coerceIntField p f) k = PyDict.hasKey p k := by
  unfold coerceIntField
  split
  case isTrue hg =>
    have hf : PyDict.hasKey p f = true := hg.1
    split <;>
    · rw [PyDict.hasKey_setKey]
      by_cases hfk : f = k
      · simp [hfk, hfk ▸ hf]
      · simp [hfk]
  case isFalse hg => rfl

theorem coerceIntField_getD_ne (p : PyDict) (f k : String) (h : k ≠ f) :
    PyDict.getD (coerceIntField p f) k = PyDict.getD p k := by
  unfold coerceIntField
  split
  · split <;> exact PyDict.getD_setKey_ne _ _ _ _ h
  · rfl

theorem coerceIntField_getD_self (p : PyDict) (f : String) :
    PyDict.getD (coerceIntField p f) f
      = if PyDict.hasKey p f ∧ PyDict.getD p f ≠ PyVal.none then
          (match pyIntOf (PyDict.getD p f) with
           | Option.some n => PyVal.int n
           | Option.none => PyVal.none)
        else PyDict.getD p f := by
  unfold coerceIntField
  split
  case isTrue hg =>
    split <;> rw [PyDict.getD_setKey_self]
  case isFalse hg => rfl

theorem amountStep_hasKey (a : PyDict) (k : String) :
    PyDict.hasKey (amountStep a) k = PyDict.hasKey a k := by
  unfold amountStep
  split
  case isTrue hg =>
    have hf : PyDict.hasKey a "award_amount" = true := hg.1
    split <;>
    · rw [PyDict.hasKey_setKey]
      by_cases hak : "award_amount" = k
      · simp [hak, hak ▸ hf]
      · simp [hak]
  case isFalse hg => rfl

theorem amountStep_getD_ne (a : PyDict) (k : String) (h : k ≠ "award_amount") :
    PyDict.getD (amountStep a) k = PyDict.getD a k := by
  unfold amountStep
  split
  · split <;> exact PyDict.getD_setKey_ne _ _ _ _ h
  · rfl

theorem amountStep_getD_self (a : PyDict) :
    PyDict.getD (amountStep a) "award_amount"
      = if PyDict.hasKey a "award_amount" ∧ (PyDict.getD a "award_amount").truthy then
          (match pyFloatOf (PyDict.getD a "award_amount") with
           | Option.some q => PyVal.float q
           | Option.none => PyVal.none)
        else PyDict.getD a "award_amount" := by
  unfold amountStep
  split
  · split <;> rw [PyDict.getD_setKey_self]
  · rfl

theorem foldl_coerce_getD_not_mem (fs : List String) (p : PyDict) (f : String)
    (h : f ∉ fs) :
    PyDict.getD (fs.foldl coerceIntField p) f = PyDict.getD p f := by
  induction fs generalizing p with
  | nil => rfl
  | cons g rest ih =>
    rw [List.foldl_cons, ih _ (fun hc => h (List.mem_cons_of_mem _ hc)),
      coerceIntField_getD_ne _ _ _ (fun hc => h (by rw [hc]; exact List.mem_cons_self _ _))]

theorem foldl_coerce_hasKey (fs : List String) (p : PyDict) (f : String) :
    PyDict.hasKey (fs.foldl coerceIntField p) f = PyDict.hasKey p f := by
  induction fs generalizing p with
  | nil => rfl
  | cons g rest ih => rw [List.foldl_cons, ih, coerceIntField_hasKey]

theorem foldl_coerce_getD_mem (fs : List String) (p : PyDict) (f : String)
    (hf : f ∈ fs) (hnd : fs.Nodup) :
    PyDict.getD (fs.foldl coerceIntField p) f
      = if PyDict.hasKey p f ∧ PyDict.getD p f ≠ PyVal.none then
          (match pyIntOf (PyDict.getD p f) with
           | Option.some n => PyVal.int n
           | Option.none => PyVal.none)
        else PyDict.getD p f := by
  induction fs generalizing p with
  | nil => exact absurd hf (List.not_mem_nil f)
  | cons g rest ih =>
    rw [List.foldl_cons]
    rcases List.mem_cons.mp hf with heq | hmem
    · subst heq
      have hnm : f ∉ rest := (List.nodup_cons.mp hnd).1
      rw [foldl_coerce_getD_not_mem _ _ _ hnm, coerceIntField_getD_self]
    · have hne : f ≠ g := fun hc => (List.nodup_cons.mp hnd).1 (hc ▸ hmem)
      rw [ih _ hmem (List.nodup_cons.mp hnd).2, coerceIntField_hasKey,
        coerceIntField_getD_ne _ _ _ hne]

theorem proc_hasKey (a : PyDict) (k : String) :
    PyDict.hasKey (_process_award_for_db a) k
      = (PyDict.hasKey a k || decide ("raw_data" = k)) := by
  unfold _process_award_for_db
  rw [foldl_coerce_hasKey, PyDict.hasKey_setKey, amountStep_hasKey]

theorem proc_getD_of_ne (a : PyDict) (k : String) (hra : k ≠ "raw_data")
    (ham : k ≠ "award_amount") (hint : k ∉ INT_FIELDS) :
    PyDict.getD (_process_award_for_db a) k = PyDict.getD a k := by
  unfold _process_award_for_db
  rw [foldl_coerce_getD_not_mem _ _ _ hint, PyDict.getD_setKey_ne _ _ _ _ hra,
    amountStep_getD_ne _ _ ham]

theorem proc_getD_amount (a : PyDict) :
    PyDict.getD (_process_award_for_db a) "award_amount"
      = if PyDict.hasKey a "award_amount" ∧ (PyDict.getD a "award_amount").truthy then
          (match pyFloatOf (PyDict.getD a "award_amount") with
           | Option.some q => PyVal.float q
           | Option.none => PyVal.none)
        else PyDict.getD a "award_amount" := by
  unfold _process_award_for_db
  rw [foldl_coerce_getD_not_mem _ _ _ (by simp [INT_FIELDS]),
    PyDict.getD_setKey_ne _ _ _ _ (by simp), amountStep_getD_self]

theorem proc_getD_int (a : PyDict) (f : String) (hf : f ∈ INT_FIELDS) :
    PyDict.getD (_process_award_for_db a) f
      = if PyDict.hasKey a f ∧ PyDict.getD a f ≠ PyVal.none then
          (match pyIntOf (PyDict.getD a f) with
           | Option.some n => PyVal.int n
           | Option.none => PyVal.none)
        else PyDict.getD a f := by
  have hra : f ≠ "raw_data" := by
    intro hc
    subst hc
    simp [INT_FIELDS] at hf
  have ham : f ≠ "award_amount" := by
    intro hc
    subst hc
    simp [INT_FIELDS] at hf
  unfold _process_award_for_db
  rw [foldl_coerce_getD_mem _ _ _ hf (by simp [INT_FIELDS]),
    PyDict.hasKey_setKey, amountStep_hasKey,
    PyDict.getD_setKey_ne _ _ _ _ hra, amountStep_getD_ne _ _ ham]
  have : decide ("raw_data" = f) = false :=
    decide_eq_false_iff_not.mpr (Ne.symm hra)
  rw [this, Bool.or_false]

theorem PyDict.hasKey_of_getD_ne_none (d : PyDict) (k : String)
    (h : PyDict.getD d k ≠ PyVal.none) : PyDict.hasKey d k = true := by
  by_contra hc
  exact h (PyDict.getD_eq_none_of_not_hasKey d k (by simpa using hc))

/-! ## Claim C10 — numeric coercion -/

/-- An accepted award whose `award_amount` is the empty string (falsy but
present). -/
def c10EmptyAmountAward : PyDict :=
  mkAward (PyVal.str "C10A") (PyVal.str "NSF") (PyVal.str "T10A") (PyVal.str "")

/-- An award whose `award_year` carries a thousands separator. -/
def c10CommaYearAward : PyDict :=
  (mkAward (PyVal.str "C10B") (PyVal.str "NSF") (PyVal.str "T10B") (PyVal.str "5")).setKey
    "award_year" (PyVal.str "2,020")

/-- C10 counterexample — the claim fails on the code in two places: (i) an
`award_amount` of `""` does not parse as a number, so the claim stores
null, but `_process_award_for_db`'s truthiness guard skips falsy values
and the empty string is stored unchanged; (ii) an `award_year` of
`"2,020"` would become `2020` if integer fields were coerced "the same
way" (comma-stripped), but `int()` is applied without comma stripping and
the field becomes null. -/
theorem C10_counterexample :
    PyDict.getD (_process_award_for_db c10EmptyAmountAward) "award_amount" = PyVal.str ""
      ∧ PyVal.str "" ≠ PyVal.none
      ∧ parseInt? (stripCommas "2,020") = Option.some 2020
      ∧ PyDict.getD (_process_award_for_db c10CommaYearAward) "award_year" = PyVal.none := by
  refine ⟨by rfl, by simp, by rfl, by rfl⟩

/-- C10 (amended) — for every accepted award whose `award_amount` is a
present, non-empty (truthy) string, the stored amount is obtained by
stripping commas and parsing as a float, null on parse failure; a falsy or
absent amount is left unchanged rather than nulled.  Integer fields that
are present and non-`None` are parsed by `int(...)` (no comma stripping),
null on failure.  In all cases the record itself is still kept: a single
upsert of it succeeds and reports one statement executed. -/
theorem C10_numeric_coercion (a : PyDict) (s : String) (f : String) (v : PyVal)
    (hs : PyDict.getD a "award_amount" = PyVal.str s) (hsne : s ≠ "")
    (hf : f ∈ INT_FIELDS) (hv : PyDict.getD a f = v) (hvn : v ≠ PyVal.none)
    (hbind : bindAward (_process_award_for_db a) ≠ Option.none) :
    (PyDict.getD (_process_award_for_db a) "award_amount"
        = (match parseFloat? (stripCommas s) with
           | Option.some q => PyVal.float q
           | Option.none => PyVal.none))
      ∧ (PyDict.getD (_process_award_for_db a) f
          = (match pyIntOf v with
             | Option.some n => PyVal.int n
             | Option.none => PyVal.none))
      ∧ (∀ b : PyDict, PyVal.truthy (PyDict.getD b "award_amount") = false →
          PyDict.getD (_process_award_for_db b) "award_amount" = PyDict.getD b "award_amount")
      ∧ (∀ db t, ∃ db', insert_awards [a] db t = Option.some (db', 1)) := by
  have hk : PyDict.hasKey a "award_amount" = true :=
    PyDict.hasKey_of_getD_ne_none a _ (by rw [hs]; simp)
  have htr : (PyDict.getD a "award_amount").truthy = true := by
    rw [hs]
    simpa [PyVal.truthy] using hsne
  have hkf : PyDict.hasKey a f = true :=
    PyDict.hasKey_of_getD_ne_none a f (by rw [hv]; exact hvn)
  refine ⟨?_, ?_, ?_, ?_⟩
  · rw [proc_getD_amount, if_pos ⟨hk, htr⟩, hs]
    rfl
  · rw [proc_getD_int a f hf, if_pos ⟨hkf, by rw [hv]; exact hvn⟩, hv]
  · intro b hb
    rw [proc_getD_amount, if_neg (fun hc => by rw [hb] at hc; exact absurd hc.2 (by simp))]
  · intro db t
    rcases Option.ne_none_iff_exists'.mp hbind with ⟨d, hd⟩
    refine ⟨(Row.mk d t t :: []).foldl upsertRow db, ?_⟩
    unfold insert_awards
    rw [if_neg (by simp)]
    simp only [List.map, List.mapM, List.mapM.loop, hd]
    rfl

/-- A fully-populated award whose amount carries a thousands separator and
whose `award_year` is a plain digit string. -/
def c10WitnessAward : PyDict :=
  (mkAward (PyVal.str "C10W") (PyVal.str "NSF") (PyVal.str "T10W")
    (PyVal.str "1,234.50")).setKey "award_year" (PyVal.str "1999")

/-- An award whose amount does not parse as a number. -/
def c10NanAward : PyDict :=
  (mkAward (PyVal.str "C10N") (PyVal.str "NSF") (PyVal.str "T10N")
    (PyVal.str "not-a-number")).setKey "award_year" (PyVal.str "1999")

theorem pyFloat_comma_example :
    pyFloatOf (PyVal.str "1,234.50") = Option.some ((2469 : Rat) / 2) := by
  show parseFloat? (stripCommas "1,234.50") = _
  have h : stripCommas "1,234.50" = "1234.50" := by decide
  rw [h]
  have h2 : parseFloat? "1234.50"
      = Option.some (((digitsToNat ['1', '2', '3', '4'] : Int) : Rat)
          + ((digitsToNat ['5', '0'] : Int) : Rat)
            / ((10 : Rat) ^ (['5', '0'] : List Char).length)) := by rfl
  rw [h2, show digitsToNat ['1', '2', '3', '4'] = 1234 from by decide,
    show digitsToNat ['5', '0'] = 50 from by decide]
  norm_num

theorem C10_numeric_coercion_witness :
    PyDict.getD (_process_award_for_db c10WitnessAward) "award_amount"
        = PyVal.float ((2469 : Rat) / 2)
      ∧ PyDict.getD (_process_award_for_db c10WitnessAward) "award_year" = PyVal.int 1999
      ∧ PyDict.getD (_process_award_for_db c10NanAward) "award_amount" = PyVal.none
      ∧ (∃ db', insert_awards [c10NanAward] emptyDB 0 = Option.some (db', 1)) := by
  have h1 := C10_numeric_coercion c10WitnessAward "1,234.50" "award_year" (PyVal.str "1999")
    (by rfl) (by decide) (by decide) (by rfl) (by decide) (by decide)
  have h2 := C10_numeric_coercion c10NanAward "not-a-number" "award_year" (PyVal.str "1999")
    (by rfl) (by decide) (by decide) (by rfl) (by decide) (by decide)
  refine ⟨?_, ?_, ?_, h2.2.2.2 emptyDB 0⟩
  · rw [h1.1]
    have hp : parseFloat? (stripCommas "1,234.50") = Option.some ((2469 : Rat) / 2) :=
      pyFloat_comma_example
    rw [hp]
  · rw [h1.2.1]
    decide
  · rw [h2.1]
    decide

/-! ## Upsert lemmas and claim C1 -/

/-- Number of stored rows whose identity triple equals `idv`. -/
def countIdentity (db : DB) (idv : PyVal × PyVal × PyVal) : Nat :=
  (db.awards.filter (fun r => decide (r.identity = idv))).length

theorem insert_awards_singleton (a d : PyDict) (db : DB) (t : Nat)
    (hb : bindAward (_process_award_for_db a) = Option.some d) :
    insert_awards [a] db t = Option.some (upsertRow db (Row.mk d t t), 1) := by
  unfold insert_awards
  rw [if_neg (by simp)]
  simp only [List.map, List.mapM, List.mapM.loop, hb]
  rfl

theorem insert_awards_pair (a d : PyDict) (db : DB) (t : Nat)
    (hb : bindAward (_process_award_for_db a) = Option.some d) :
    insert_awards [a, a] db t
      = Option.some (upsertRow (upsertRow db (Row.mk d t t)) (Row.mk d t t), 2) := by
  unfold insert_awards
  rw [if_neg (by simp)]
  simp only [List.map, List.mapM, List.mapM.loop, hb]
  rfl

theorem bound_row_identity (a d : PyDict) (t1 t2 : Nat)
    (hb : bindAward (_process_award_for_db a) = Option.some d) :
    (Row.mk d t1 t2).identity = awardIdentity a := by
  unfold bindAward at hb
  split at hb
  case isTrue hall =>
    have hd : d = AWARD_COLUMNS.map
        (fun c => (c, PyDict.getD (_process_award_for_db a) c)) := by
      injection hb with h
      exact h.symm
    subst hd
    show (PyDict.getD _ "contract", PyDict.getD _ "agency",
      PyDict.getD _ "agency_tracking_number") = _
    have h1 : PyDict.getD (AWARD_COLUMNS.map
        (fun c => (c, PyDict.getD (_process_award_for_db a) c))) "contract"
        = PyDict.getD (_process_award_for_db a) "contract" := by rfl
    have h2 : PyDict.getD (AWARD_COLUMNS.map
        (fun c => (c, PyDict.getD (_process_award_for_db a) c))) "agency"
        = PyDict.getD (_process_award_for_db a) "agency" := by rfl
    have h3 : PyDict.getD (AWARD_COLUMNS.map
        (fun c => (c, PyDict.getD (_process_award_for_db a) c))) "agency_tracking_number"
        = PyDict.getD (_process_award_for_db a) "agency_tracking_number" := by rfl
    rw [h1, h2, h3,
      proc_getD_of_ne a "contract" (by decide) (by decide) (by decide),
      proc_getD_of_ne a "agency" (by decide) (by decide) (by decide),
      proc_getD_of_ne a "agency_tracking_number" (by decide) (by decide) (by decide)]
    rfl
  case isFalse => exact absurd hb (by simp)

theorem idConflict_of_eq (x y : PyVal × PyVal × PyVal)
    (h1 : y.1 ≠ PyVal.none) (h2 : y.2.1 ≠ PyVal.none) (h3 : y.2.2 ≠ PyVal.none)
    (heq : x = y) : idConflict x y = true := by
  subst heq
  simp [idConflict, h1, h2, h3]

theorem countIdentity_upsertRow (db : DB) (r : Row)
    (h1 : r.identity.1 ≠ PyVal.none) (h2 : r.identity.2.1 ≠ PyVal.none)
    (h3 : r.identity.2.2 ≠ PyVal.none) :
    countIdentity (upsertRow db r) r.identity = 1
      ∧ ∀ r0 ∈ (upsertRow db r).awards, r0.identity = r.identity → r0 = r := by
  constructor
  · unfold countIdentity upsertRow
    rw [List.filter_append]
    have hnil : (db.awards.filter (fun r0 => ¬ idConflict r0.identity r.identity)).filter
        (fun r0 => decide (r0.identity = r.identity)) = [] := by
      rw [List.filter_eq_nil_iff]
      intro r0 hr0
      rcases List.mem_filter.mp hr0 with ⟨_, hnc⟩
      intro hdec
      have heq : r0.identity = r.identity := of_decide_eq_true hdec
      have : idConflict r0.identity r.identity = true :=
        idConflict_of_eq _ _ h1 h2 h3 heq
      simp [this] at hnc
    rw [hnil]
    simp
  · intro r0 hr0 heq
    rcases List.mem_append.mp hr0 with h | h
    · rcases List.mem_filter.mp h with ⟨_, hnc⟩
      have : idConflict r0.identity r.identity = true :=
        idConflict_of_eq _ _ h1 h2 h3 heq
      simp [this] at hnc
    · simpa using h

/-- C1 (amended) — for every award record `R` whose `contract`, `agency`
and `agency_tracking_number` are all non-NULL (and which binds all insert
columns), upserting `R` into any database state leaves exactly one stored
row with `R`'s identity triple; a later upsert of a record `R'` with the
same identity replaces that row (the surviving row carries `R'`'s bound
data) and refreshes its `updated_at` timestamp to the later time; and a
single batch containing `R` twice also leaves exactly one such row.  For
records with a NULL identity component the property fails (see the
counterexample): SQLite treats NULLs as distinct in the unique index. -/
theorem C1_idempotent_upsert (a a' d d' : PyDict) (db : DB) (t1 t2 : Nat)
    (hb : bindAward (_process_award_for_db a) = Option.some d)
    (hb' : bindAward (_process_award_for_db a') = Option.some d')
    (hid : awardIdentity a' = awardIdentity a)
    (hc : (awardIdentity a).1 ≠ PyVal.none)
    (hg : (awardIdentity a).2.1 ≠ PyVal.none)
    (ht : (awardIdentity a).2.2 ≠ PyVal.none) :
    ∃ db1 db2 db3,
      insert_awards [a] db t1 = Option.some (db1, 1)
        ∧ countIdentity db1 (awardIdentity a) = 1
        ∧ insert_awards [a'] db1 t2 = Option.some (db2, 1)
        ∧ countIdentity db2 (awardIdentity a) = 1
        ∧ (∀ r ∈ db2.awards, r.identity = awardIdentity a →
            r.updated_at = t2 ∧ r.data = d')
        ∧ insert_awards [a, a] db t1 = Option.some (db3, 2)
        ∧ countIdentity db3 (awardIdentity a) = 1 := by
  have hrow1 : (Row.mk d t1 t1).identity = awardIdentity a :=
    bound_row_identity a d t1 t1 hb
  have hrow2 : (Row.mk d' t2 t2).identity = awardIdentity a := by
    rw [bound_row_identity a' d' t2 t2 hb', hid]
  refine ⟨upsertRow db (Row.mk d t1 t1),
    upsertRow (upsertRow db (Row.mk d t1 t1)) (Row.mk d' t2 t2),
    upsertRow (upsertRow db (Row.mk d t1 t1)) (Row.mk d t1 t1),
    insert_awards_singleton a d db t1 hb, ?_, ?_, ?_, ?_,
    insert_awards_pair a d db t1 hb, ?_⟩
  · have := (countIdentity_upsertRow db (Row.mk d t1 t1)
      (hrow1 ▸ hc) (hrow1 ▸ hg) (hrow1 ▸ ht)).1
    rwa [hrow1] at this
  · exact insert_awards_singleton a' d' _ t2 hb'
  · have := (countIdentity_upsertRow (upsertRow db (Row.mk d t1 t1)) (Row.mk d' t2 t2)
      (hrow2 ▸ hc) (hrow2 ▸ hg) (hrow2 ▸ ht)).1
    rwa [hrow2] at this
  · intro r hr heq
    have huniq := (countIdentity_upsertRow (upsertRow db (Row.mk d t1 t1)) (Row.mk d' t2 t2)
      (hrow2 ▸ hc) (hrow2 ▸ hg) (hrow2 ▸ ht)).2
    have : r = Row.mk d' t2 t2 := huniq r hr (by rw [heq, hrow2])
    rw [this]
    exact ⟨rfl, rfl⟩
  · have := (countIdentity_upsertRow (upsertRow db (Row.mk d t1 t1)) (Row.mk d t1 t1)
      (hrow1 ▸ hc) (hrow1 ▸ hg) (hrow1 ▸ ht)).1
    rwa [hrow1] at this

/-- An award whose `contract` is NULL (validation only checks key
presence, not non-`None`, so such a record can reach `insert_awards`). -/
def c1NullAward : PyDict :=
  mkAward PyVal.none (PyVal.str "NSF") (PyVal.str "T1") (PyVal.str "5")

/-- C1 counterexample — upserting a batch containing the same record twice
leaves TWO stored rows with that record's identity triple when its
`contract` is NULL, because SQLite's unique index never matches NULL
against NULL; the claim's "exactly one stored row" fails as stated for
arbitrary records. -/
theorem C1_counterexample :
    (insert_awards [c1NullAward, c1NullAward] emptyDB 7).map
        (fun r => countIdentity r.1 (awardIdentity c1NullAward)) = Option.some 2
      ∧ Option.some (2 : Nat) ≠ Option.some 1 := by
  exact ⟨by rfl, by decide⟩

/-- A fully-populated award with a non-NULL identity triple. -/
def c1WitnessAward : PyDict :=
  mkAward (PyVal.str "C1W") (PyVal.str "NSF") (PyVal.str "T1W") (PyVal.str "5")

/-- The bound column list of the processed witness award. -/
def c1WitnessBound : PyDict :=
  AWARD_COLUMNS.map (fun c => (c, PyDict.getD (_process_award_for_db c1WitnessAward) c))

theorem C1_idempotent_upsert_witness :
    ∃ db1 db2 db3,
      insert_awards [c1WitnessAward] emptyDB 1 = Option.some (db1, 1)
        ∧ countIdentity db1 (awardIdentity c1WitnessAward) = 1
        ∧ insert_awards [c1WitnessAward] db1 2 = Option.some (db2, 1)
        ∧ countIdentity db2 (awardIdentity c1WitnessAward) = 1
        ∧ (∀ r ∈ db2.awards, r.identity = awardIdentity c1WitnessAward →
            r.updated_at = 2 ∧ r.data = c1WitnessBound)
        ∧ insert_awards [c1WitnessAward, c1WitnessAward] emptyDB 1 = Option.some (db3, 2)
        ∧ countIdentity db3 (awardIdentity c1WitnessAward) = 1 :=
  C1_idempotent_upsert c1WitnessAward c1WitnessAward c1WitnessBound c1WitnessBound
    emptyDB 1 2 (by rfl) (by rfl) rfl (by decide) (by decide) (by decide)

/-! ## Claim C8 — storage fault propagation -/

/-- A one-row database used to exhibit the fault behavior. -/
def c8Award : PyDict :=
  mkAward (PyVal.str "C8A") (PyVal.str "NSF") (PyVal.str "T8") (PyVal.str "5")

def c8DB : DB := ((insert_awards [c8Award] emptyDB 3).getD (emptyDB, 0)).1

/-- C8 counterexample — the claim says every Gateway operation propagates
an underlying storage fault as an error; in fact the three getters swallow
it: a faulting `get_record_count` returns the normal-looking value `0`
(indistinguishable from an empty table with no fault), and faulting
`get_latest_date`/`get_metadata` return `None` (indistinguishable from an
absent value). -/
theorem C8_counterexample :
    get_record_countF c8DB true = 0
      ∧ get_record_count c8DB = 1
      ∧ get_record_countF emptyDB false = 0
      ∧ get_latest_dateF c8DB true = Option.none
      ∧ get_metadataF (set_metadata emptyDB "k" "v") "k" true = Option.none
      ∧ get_metadata (set_metadata emptyDB "k" "v") "k" = Option.some "v" := by
  refine ⟨rfl, by rfl, rfl, rfl, rfl, by rfl⟩

/-- C8 (amended) — the mutating Gateway operations (`insert_awards`,
`set_metadata`) re-raise an underlying storage fault to the caller, while
the read operations swallow it: `get_record_count` returns `0`, and
`get_latest_date`/`get_metadata` return `None`, under a fault. -/
theorem C8_fault_propagation (db : DB) (k v : String) (awards : List PyDict) (t : Nat) :
    set_metadataF db k v true = Except.error ()
      ∧ insert_awardsF awards db t true = Except.error ()
      ∧ get_record_countF db true = 0
      ∧ get_latest_dateF db true = Option.none
      ∧ get_metadataF db k true = Option.none :=
  ⟨rfl, rfl, rfl, rfl, rfl⟩

/-! ## Claim C7 — fetch retry policy -/

theorem fetchAttempts_transport_step (responses : Nat → FetchResp) (idx r : Nat)
    (h : responses idx = FetchResp.transportErr) (hr : r ≠ 0) :
    fetchAttempts responses idx (r + 1)
      = ((fetchAttempts responses (idx + 1) r).1,
         (fetchAttempts responses (idx + 1) r).2.1 + 1,
         RETRY_DELAY :: (fetchAttempts responses (idx + 1) r).2.2) := by
  rcases hfa : fetchAttempts responses (idx + 1) r with ⟨res, n, sleeps⟩
  conv_lhs => unfold fetchAttempts
  rw [h, if_neg hr, hfa]

theorem fetchAttempts_transport_last (responses : Nat → FetchResp) (idx : Nat)
    (h : responses idx = FetchResp.transportErr) :
    fetchAttempts responses idx 1 = (Option.none, 1, []) := by
  unfold fetchAttempts
  rw [h]
  rfl

theorem fetchAttempts_badJson (responses : Nat → FetchResp) (idx r : Nat)
    (h : responses idx = FetchResp.badJson) :
    fetchAttempts responses idx (r + 1) = (Option.none, 1, []) := by
  unfold fetchAttempts
  rw [h]

/-- C7 — a page fetch whose every attempt fails at the transport level is
retried up to the fixed ceiling (`MAX_RETRIES = 3`) with the fixed delay
(`RETRY_DELAY` seconds) slept between consecutive attempts, and then
reports failure (`None`) to its caller; a response body that fails to
parse as the expected structure at attempt `k` makes the fetch report
failure immediately — exactly `k + 1` attempts, no retry after the
malformed body. -/
theorem C7_retry_policy :
    (∀ responses : Nat → FetchResp,
        (∀ i, i < MAX_RETRIES → responses i = FetchResp.transportErr) →
        fetch_batchT responses
          = (Option.none, MAX_RETRIES, List.replicate (MAX_RETRIES - 1) RETRY_DELAY))
      ∧ (∀ (responses : Nat → FetchResp) (k : Nat), k < MAX_RETRIES →
          (∀ i, i < k → responses i = FetchResp.transportErr) →
          responses k = FetchResp.badJson →
          fetch_batchT responses = (Option.none, k + 1, List.replicate k RETRY_DELAY)) := by
  constructor
  · intro responses h
    have h0 := h 0 (by decide)
    have h1 := h 1 (by decide)
    have h2 := h 2 (by decide)
    show fetchAttempts responses 0 3 = (Option.none, 3, List.replicate 2 RETRY_DELAY)
    rw [show (3 : Nat) = 2 + 1 from rfl,
      fetchAttempts_transport_step responses 0 2 h0 (by decide),
      show (2 : Nat) = 1 + 1 from rfl,
      fetchAttempts_transport_step responses 1 1 h1 (by decide),
      fetchAttempts_transport_last responses 2 h2]
    rfl
  · intro responses k hk hpre hbad
    have hk3 : k < 3 := hk
    interval_cases k
    · show fetchAttempts responses 0 3 = (Option.none, 1, List.replicate 0 RETRY_DELAY)
      rw [show (3 : Nat) = 2 + 1 from rfl, fetchAttempts_badJson responses 0 2 hbad]
      rfl
    · have h0 := hpre 0 (by decide)
      show fetchAttempts responses 0 3 = (Option.none, 2, List.replicate 1 RETRY_DELAY)
      rw [show (3 : Nat) = 2 + 1 from rfl,
        fetchAttempts_transport_step responses 0 2 h0 (by decide),
        show (2 : Nat) = 1 + 1 from rfl, fetchAttempts_badJson responses 1 1 hbad]
      rfl
    · have h0 := hpre 0 (by decide)
      have h1 := hpre 1 (by decide)
      show fetchAttempts responses 0 3 = (Option.none, 3, List.replicate 2 RETRY_DELAY)
      rw [show (3 : Nat) = 2 + 1 from rfl,
        fetchAttempts_transport_step responses 0 2 h0 (by decide),
        show (2 : Nat) = 1 + 1 from rfl,
        fetchAttempts_transport_step responses 1 1 h1 (by decide),
        show (1 : Nat) = 0 + 1 from rfl, fetchAttempts_badJson responses 2 0 hbad]
      rfl

/-- Attempt oracle that always fails at the transport level. -/
def c7AllTransport : Nat → FetchResp := fun _ => FetchResp.transportErr

/-- Attempt oracle: one transport failure, then a malformed body. -/
def c7ThenBadJson : Nat → FetchResp := fun i =>
  if i = 0 then FetchResp.transportErr else FetchResp.badJson

theorem C7_retry_policy_witness :
    fetch_batchT c7AllTransport = (Option.none, 3, [5, 5])
      ∧ fetch_batchT c7ThenBadJson = (Option.none, 2, [5]) := by
  constructor
  · have := C7_retry_policy.1 c7AllTransport (fun i _ => rfl)
    simpa using this
  · have := C7_retry_policy.2 c7ThenBadJson 1 (by decide)
      (fun i hi => by
        have : i = 0 := by omega
        subst this
        rfl) (by rfl)
    simpa using this

/-! ## Claim C6 — schedule gate -/

/-- C6 — whenever the stored last-check timestamp is younger than the
configured `UPDATE_CHECK_DAYS` interval, `check_for_updates` with
`force = false` is a no-op: it reports success with zero new records,
performs no fetch or upsert (the ghost proceeded flag is `false` and the
database, its metadata included, is returned unchanged), and the
last-check timestamp metadata is untouched; with `force = true` it
proceeds past the gate regardless. -/
theorem C6_schedule_gate (db : DB) (recent : List PyDict) (now last : Nat)
    (hlast : get_last_update_date db = Option.some last)
    (hyoung : daysSince now last < (UPDATE_CHECK_DAYS : Int)) :
    check_for_updates recent false db now = (true, db, 0, false)
      ∧ get_metadata ((check_for_updates recent false db now).2.1) "last_update_check"
          = get_metadata db "last_update_check"
      ∧ (check_for_updates recent true db now).2.2.2 = true := by
  have hgate : should_check_for_updates db now = false := by
    unfold should_check_for_updates
    rw [hlast]
    exact decide_eq_false_iff_not.mpr (not_le.mpr hyoung)
  have hmain : check_for_updates recent false db now = (true, db, 0, false) := by
    unfold check_for_updates
    rw [if_pos ⟨by simp, by simp [hgate]⟩]
  refine ⟨hmain, by rw [hmain], ?_⟩
  unfold check_for_updates
  rw [if_neg (by simp)]
  split
  · rfl
  · dsimp only
    split
    · rfl
    · split <;> rfl

/-- A metadata state whose last check is at time 0. -/
def c6DB : DB := set_metadata emptyDB "last_update_check" "0"

theorem C6_schedule_gate_witness :
    check_for_updates [] false c6DB 172800 = (true, c6DB, 0, false)
      ∧ (check_for_updates [] true c6DB 172800).2.2.2 = true := by
  have h := C6_schedule_gate c6DB [] 172800 0 (by rfl) (by decide)
  exact ⟨h.1, h.2.2⟩

/-! ## Claim C5 — incremental new-record detection -/

theorem insert_awards_count (l : List PyDict) (db : DB) (t : Nat) (db' : DB) (n : Nat)
    (h : insert_awards l db t = Option.some (db', n)) : n = l.length := by
  unfold insert_awards at h
  split at h
  case isTrue he =>
    injection h with h'
    injection h' with _ h2
    rw [← h2, List.length_eq_zero.mpr (List.isEmpty_iff.mp he)]
  case isFalse he =>
    split at h
    · exact absurd h (by simp)
    · injection h with h'
      injection h' with _ h2
      exact h2.symm

/-- A record already stored under contract `C1`. -/
def c5StoredAward : PyDict :=
  mkAward (PyVal.str "C1") (PyVal.str "NSF") (PyVal.str "T1") (PyVal.str "5")

/-- A fetched record with the same contract but a different agency and
tracking number: its identity triple is NOT in storage. -/
def c5FetchedAward : PyDict :=
  mkAward (PyVal.str "C1") (PyVal.str "DOE") (PyVal.str "T2") (PyVal.str "5")

def c5DB : DB := ((insert_awards [c5StoredAward] emptyDB 3).getD (emptyDB, 0)).1

/-- C5 counterexample — newness is decided by the contract value alone,
not by the identity triple: a fetched record whose (contract, agency,
tracking-number) triple is absent from storage is still classified as
not-new (and not upserted) because its contract matches a stored row, so
the claimed "if and only if its identity key is absent" fails. -/
theorem C5_counterexample :
    identify_new_awards [c5FetchedAward] (get_existing_contracts c5DB) = []
      ∧ awardIdentity c5FetchedAward ∉ c5DB.awards.map Row.identity
      ∧ ((check_for_updates [c5FetchedAward] true c5DB 999).2.1).awards = c5DB.awards
      ∧ (check_for_updates [c5FetchedAward] true c5DB 999).2.2.1 = 0 := by
  refine ⟨by rfl, by decide, by rfl, by rfl⟩

/-- C5 (amended) — in a sync that proceeds past the gate, a fetched
in-window record is classified as new iff its `contract` value is truthy
and absent from the set of distinct non-NULL contract values already in
storage (contract-only matching, not the full identity triple); the new
set is upserted in one batch and the reported `new_records_found` equals
its size. -/
theorem C5_new_record_detection (db : DB) (recent : List PyDict) (now : Nat) (a : PyDict)
    (hne : identify_new_awards recent (get_existing_contracts db) ≠ [])
    (hins : insert_awards (identify_new_awards recent (get_existing_contracts db)) db now
      ≠ Option.none) :
    (a ∈ identify_new_awards recent (get_existing_contracts db)
        ↔ a ∈ recent ∧ (PyDict.getD a "contract").truthy = true
            ∧ PyDict.getD a "contract" ∉ get_existing_contracts db)
      ∧ ∃ db', insert_awards (identify_new_awards recent (get_existing_contracts db)) db now
            = Option.some (db', (identify_new_awards recent (get_existing_contracts db)).length)
          ∧ check_for_updates recent true db now
            = (true,
               update_metadata db' now
                 (identify_new_awards recent (get_existing_contracts db)).length,
               (identify_new_awards recent (get_existing_contracts db)).length, true) := by
  constructor
  · unfold identify_new_awards
    rw [List.mem_filter]
    simp
  · rcases Option.ne_none_iff_exists'.mp hins with ⟨⟨db', n⟩, hr⟩
    have hn : n = (identify_new_awards recent (get_existing_contracts db)).length :=
      insert_awards_count _ db now db' n hr
    subst hn
    refine ⟨db', hr, ?_⟩
    have hrec : recent.isEmpty = false := by
      rcases recent with _ | ⟨b, rest⟩
      · exact absurd rfl hne
      · rfl
    unfold check_for_updates
    rw [if_neg (by simp)]
    dsimp only
    rw [if_neg (by simp [hrec]), if_neg (by simpa using hne), hr]

def c5AwardA : PyDict := mkAward (PyVal.str "A") (PyVal.str "NSF") (PyVal.str "TA") (PyVal.str "5")
def c5AwardB : PyDict := mkAward (PyVal.str "B") (PyVal.str "NSF") (PyVal.str "TB") (PyVal.str "5")
def c5AwardB2 : PyDict := mkAward (PyVal.str "B") (PyVal.str "NSF") (PyVal.str "TB") (PyVal.str "6")
def c5AwardC : PyDict := mkAward (PyVal.str "C") (PyVal.str "NSF") (PyVal.str "TC") (PyVal.str "5")

/-- Storage knowing contracts {A, B}. -/
def c5KnownDB : DB := ((insert_awards [c5AwardA, c5AwardB] emptyDB 1).getD (emptyDB, 0)).1

theorem C5_new_record_detection_witness :
    identify_new_awards [c5AwardB2, c5AwardC] (get_existing_contracts c5KnownDB) = [c5AwardC]
      ∧ (c5AwardC ∈ identify_new_awards [c5AwardB2, c5AwardC] (get_existing_contracts c5KnownDB)
          ↔ c5AwardC ∈ [c5AwardB2, c5AwardC]
              ∧ (PyDict.getD c5AwardC "contract").truthy = true
              ∧ PyDict.getD c5AwardC "contract" ∉ get_existing_contracts c5KnownDB)
      ∧ ∃ db', insert_awards
            (identify_new_awards [c5AwardB2, c5AwardC] (get_existing_contracts c5KnownDB))
            c5KnownDB 7
          = Option.some (db',
              (identify_new_awards [c5AwardB2, c5AwardC]
                (get_existing_contracts c5KnownDB)).length)
        ∧ check_for_updates [c5AwardB2, c5AwardC] true c5KnownDB 7
          = (true,
             update_metadata db' 7
               (identify_new_awards [c5AwardB2, c5AwardC]
                 (get_existing_contracts c5KnownDB)).length,
             (identify_new_awards [c5AwardB2, c5AwardC]
               (get_existing_contracts c5KnownDB)).length, true) := by
  have h := C5_new_record_detection c5KnownDB [c5AwardB2, c5AwardC] 7 c5AwardC
    (by decide) (by decide)
  exact ⟨by rfl, h.1, h.2⟩

/-! ## Claim C4 — offset advancement -/

/-- A source that serves only empty pages. -/
def c4Fetch : Nat → Option (List PyDict) := fun _ => Option.some []

def c4State : HarvestState := ⟨0, 0, emptyDB, 0, 0, []⟩

/-- C4 counterexample — the claim says the offset always advances by the
number of raw records returned, including for an empty page (zero); in
fact an empty page that does not complete the streak advances the offset
by the fixed `BATCH_SIZE = 1000`, not by zero. -/
theorem C4_counterexample :
    downloadIter c4Fetch 0 c4State
        = IterOut.next ⟨BATCH_SIZE, 1, emptyDB, 0, 1, [0]⟩
      ∧ BATCH_SIZE ≠ 0 + 0 := by
  exact ⟨rfl, by decide⟩

/-- C4 (amended) — whenever a fetched page is non-empty and the iteration
continues, the offset advances by exactly the page's raw record count
(not the count of records that pass validation); an empty page that does
not complete the empty streak advances the offset by the fixed
`BATCH_SIZE` instead. -/
theorem C4_offset_advance (fetch : Nat → Option (List PyDict)) (t0 : Nat)
    (s s' : HarvestState) (page : List PyDict)
    (hf : fetch s.offset = Option.some page) :
    (page ≠ [] → downloadIter fetch t0 s = IterOut.next s' →
      s'.offset = s.offset + page.length)
      ∧ (page = [] → s.streak + 1 < 3 →
          downloadIter fetch t0 s
            = IterOut.next ⟨s.offset + BATCH_SIZE, s.streak + 1, s.db, s.total,
                s.iter + 1, s.trace ++ [s.offset]⟩) := by
  constructor
  · intro hne hstep
    unfold downloadIter at hstep
    rw [hf] at hstep
    simp only [downloadStep] at hstep
    rw [if_neg (show ¬ (page.length = 0) by simpa using (List.length_pos.mpr hne).ne')] at hstep
    by_cases hv : (validate_batch page).isEmpty = true
    · rw [if_pos hv] at hstep
      injection hstep with h
      rw [← h]
    · rw [if_neg hv] at hstep
      rcases hins : insert_awards (validate_batch page) s.db (t0 + s.iter) with _ | ⟨db2, m⟩
      · rw [hins] at hstep
        exact absurd hstep (by simp)
      · rw [hins] at hstep
        injection hstep with h
        rw [← h]
  · intro hpe hstreak
    subst hpe
    unfold downloadIter
    rw [hf]
    simp only [downloadStep]
    rw [if_pos (show ([] : List PyDict).length = 0 from rfl), if_neg (by omega)]

def c4Award : PyDict :=
  mkAward (PyVal.str "C4W") (PyVal.str "NSF") (PyVal.str "T4") (PyVal.str "5")

/-- A source serving a one-record page at every offset. -/
def c4bFetch : Nat → Option (List PyDict) := fun _ => Option.some [c4Award]

def c4WDB : DB := ((insert_awards [c4Award] emptyDB 0).getD (emptyDB, 0)).1

theorem C4_offset_advance_witness :
    downloadIter c4bFetch 0 c4State = IterOut.next ⟨1, 0, c4WDB, 1, 1, [0]⟩
      ∧ (⟨1, 0, c4WDB, 1, 1, [0]⟩ : HarvestState).offset
          = c4State.offset + ([c4Award] : List PyDict).length
      ∧ downloadIter c4Fetch 0 c4State
          = IterOut.next ⟨c4State.offset + BATCH_SIZE, c4State.streak + 1, c4State.db,
              c4State.total, c4State.iter + 1, c4State.trace ++ [c4State.offset]⟩ := by
  have h1 := C4_offset_advance c4bFetch 0 c4State ⟨1, 0, c4WDB, 1, 1, [0]⟩ [c4Award] (by rfl)
  have h2 := C4_offset_advance c4Fetch 0 c4State c4State [] (by rfl)
  exact ⟨by rfl, h1.1 (by simp) (by rfl), h2.2 rfl (by decide)⟩

/-! ## Claim C3 — end-of-data detection -/

/-- C3 — (i) from any loop state with a clean streak, three consecutive
empty pages — fetched at the strictly increasing offsets `o`,
`o + BATCH_SIZE`, `o + 2·BATCH_SIZE` — terminate the harvest loop with the
`completed` outcome, leaving the database untouched; (ii) two consecutive
empty pages followed by a non-empty page do not terminate the harvest at
that point: the third iteration continues and the empty-streak counter
resets to zero; (iii) a loop that ends `completed` with no cancellation
pending makes `download_all_awards` report the run as successful. -/
theorem C3_end_of_data :
    (∀ (fetch : Nat → Option (List PyDict)) (intr : Nat → Bool) (t0 : Nat)
        (s : HarvestState) (fuel : Nat),
        3 ≤ fuel → s.streak = 0 →
        intr s.iter = false → intr (s.iter + 1) = false → intr (s.iter + 1 + 1) = false →
        fetch s.offset = Option.some [] →
        fetch (s.offset + BATCH_SIZE) = Option.some [] →
        fetch (s.offset + BATCH_SIZE + BATCH_SIZE) = Option.some [] →
        ∃ s', downloadLoop fetch intr t0 fuel s = Option.some (LoopOutcome.completed s')
          ∧ s'.db = s.db)
      ∧ (∀ (fetch : Nat → Option (List PyDict)) (t0 : Nat) (s : HarvestState)
          (page : List PyDict),
          s.streak = 0 →
          fetch s.offset = Option.some [] →
          fetch (s.offset + BATCH_SIZE) = Option.some [] →
          fetch (s.offset + BATCH_SIZE + BATCH_SIZE) = Option.some page →
          page ≠ [] →
          ((validate_batch page).isEmpty = true
            ∨ insert_awards (validate_batch page) s.db (t0 + (s.iter + 1 + 1))
                ≠ Option.none) →
          ∃ s1 s2 s3, downloadIter fetch t0 s = IterOut.next s1
            ∧ downloadIter fetch t0 s1 = IterOut.next s2
            ∧ downloadIter fetch t0 s2 = IterOut.next s3
            ∧ s2.streak = 2 ∧ s3.streak = 0)
      ∧ (∀ (fetch : Nat → Option (List PyDict)) (intr : Nat → Bool) (db0 : DB)
          (resume : Bool) (t0 fuel : Nat) (s' : HarvestState),
          downloadLoop fetch intr t0 fuel
              ⟨(if resume ∧ 0 < get_record_count db0 then get_record_count db0 else 0), 0,
                db0,
                (if resume ∧ 0 < get_record_count db0 then get_record_count db0 else 0), 0,
                []⟩
            = Option.some (LoopOutcome.completed s') →
          intr s'.iter = false →
          ∃ s'', download_all_awards fetch intr db0 resume t0 fuel
            = Option.some (true, s'')) := by
  refine ⟨?_, ?_, ?_⟩
  · intro fetch intr t0 s fuel hfuel hstreak hi0 hi1 hi2 hf1 hf2 hf3
    obtain ⟨n, rfl⟩ : ∃ n, fuel = n + 3 := ⟨fuel - 3, by omega⟩
    have e1 : downloadIter fetch t0 s
        = IterOut.next ⟨s.offset + BATCH_SIZE, s.streak + 1, s.db, s.total,
            s.iter + 1, s.trace ++ [s.offset]⟩ := by
      unfold downloadIter
      rw [hf1]
      simp only [downloadStep]
      rw [if_pos (show ([] : List PyDict).length = 0 from rfl), if_neg (by omega)]
    have e2 : downloadIter fetch t0
          (⟨s.offset + BATCH_SIZE, s.streak + 1, s.db, s.total,
            s.iter + 1, s.trace ++ [s.offset]⟩ : HarvestState)
        = IterOut.next ⟨s.offset + BATCH_SIZE + BATCH_SIZE, s.streak + 1 + 1, s.db, s.total,
            s.iter + 1 + 1, (s.trace ++ [s.offset]) ++ [s.offset + BATCH_SIZE]⟩ := by
      unfold downloadIter
      rw [hf2]
      simp only [downloadStep]
      rw [if_pos (show ([] : List PyDict).length = 0 from rfl), if_neg (by omega)]
    have e3 : downloadIter fetch t0
          (⟨s.offset + BATCH_SIZE + BATCH_SIZE, s.streak + 1 + 1, s.db, s.total,
            s.iter + 1 + 1, (s.trace ++ [s.offset]) ++ [s.offset + BATCH_SIZE]⟩ : HarvestState)
        = IterOut.complete ⟨s.offset + BATCH_SIZE + BATCH_SIZE, s.streak + 1 + 1 + 1, s.db,
            s.total, s.iter + 1 + 1,
            ((s.trace ++ [s.offset]) ++ [s.offset + BATCH_SIZE])
              ++ [s.offset + BATCH_SIZE + BATCH_SIZE]⟩ := by
      unfold downloadIter
      rw [hf3]
      simp only [downloadStep]
      rw [if_pos (show ([] : List PyDict).length = 0 from rfl), if_pos (by omega)]
    refine ⟨⟨s.offset + BATCH_SIZE + BATCH_SIZE, s.streak + 1 + 1 + 1, s.db, s.total,
      s.iter + 1 + 1,
      s.trace ++ [s.offset] ++ [s.offset + BATCH_SIZE]
        ++ [s.offset + BATCH_SIZE + BATCH_SIZE]⟩, ?_, rfl⟩
    show downloadLoop fetch intr t0 (n + 2 + 1) s = _
    unfold downloadLoop
    rw [hi0, if_neg (by simp), e1]
    show downloadLoop fetch intr t0 (n + 1 + 1) _ = _
    unfold downloadLoop
    rw [show intr (s.iter + 1) = false from hi1, if_neg (by simp), e2]
    show downloadLoop fetch intr t0 (n + 0 + 1) _ = _
    unfold downloadLoop
    rw [show intr (s.iter + 1 + 1) = false from hi2, if_neg (by simp), e3]
  · intro fetch t0 s page hstreak hf1 hf2 hf3 hpage hvd
    have e1 : downloadIter fetch t0 s
        = IterOut.next ⟨s.offset + BATCH_SIZE, s.streak + 1, s.db, s.total,
            s.iter + 1, s.trace ++ [s.offset]⟩ := by
      unfold downloadIter
      rw [hf1]
      simp only [downloadStep]
      rw [if_pos (show ([] : List PyDict).length = 0 from rfl), if_neg (by omega)]
    have e2 : downloadIter fetch t0
          (⟨s.offset + BATCH_SIZE, s.streak + 1, s.db, s.total,
            s.iter + 1, s.trace ++ [s.offset]⟩ : HarvestState)
        = IterOut.next ⟨s.offset + BATCH_SIZE + BATCH_SIZE, s.streak + 1 + 1, s.db, s.total,
            s.iter + 1 + 1, (s.trace ++ [s.offset]) ++ [s.offset + BATCH_SIZE]⟩ := by
      unfold downloadIter
      rw [hf2]
      simp only [downloadStep]
      rw [if_pos (show ([] : List PyDict).length = 0 from rfl), if_neg (by omega)]
    by_cases hv : (validate_batch page).isEmpty = true
    · refine ⟨_, _,
        ⟨s.offset + BATCH_SIZE + BATCH_SIZE + page.length, 0, s.db, s.total,
          s.iter + 1 + 1 + 1,
          s.trace ++ [s.offset] ++ [s.offset + BATCH_SIZE]
            ++ [s.offset + BATCH_SIZE + BATCH_SIZE]⟩,
        e1, e2, ?_, by show s.streak + 1 + 1 = 2; omega, rfl⟩
      unfold downloadIter
      rw [hf3]
      simp only [downloadStep]
      rw [if_neg (by simpa using (List.length_pos.mpr hpage).ne'), if_pos hv]
    · have hins := hvd.resolve_left hv
      rcases Option.ne_none_iff_exists'.mp hins with ⟨⟨db2, m⟩, hr⟩
      refine ⟨_, _,
        ⟨s.offset + BATCH_SIZE + BATCH_SIZE + page.length, 0,
          checkpointWrites db2 (s.offset + BATCH_SIZE + BATCH_SIZE + page.length)
            (t0 + (s.iter + 1 + 1)),
          s.total + m, s.iter + 1 + 1 + 1,
          s.trace ++ [s.offset] ++ [s.offset + BATCH_SIZE]
            ++ [s.offset + BATCH_SIZE + BATCH_SIZE]⟩,
        e1, e2, ?_, by show s.streak + 1 + 1 = 2; omega, rfl⟩
      unfold downloadIter
      rw [hf3]
      simp only [downloadStep]
      rw [if_neg (by simpa using (List.length_pos.mpr hpage).ne'), if_neg hv, hr]
  · intro fetch intr db0 resume t0 fuel s' hloop hintr
    unfold download_all_awards
    dsimp only
    rw [hloop]
    dsimp only
    rw [hintr]
    exact ⟨_, by rw [if_neg (by simp)]⟩

def c3EmptyFetch : Nat → Option (List PyDict) := fun _ => Option.some []

def c3NoIntr : Nat → Bool := fun _ => false

/-- Two empty pages and then a one-record page. -/
def c3MixFetch : Nat → Option (List PyDict) := fun o =>
  if o < 2000 then Option.some [] else Option.some [c4Award]

theorem C3_end_of_data_witness :
    (∃ s', downloadLoop c3EmptyFetch c3NoIntr 0 3 c4State
        = Option.some (LoopOutcome.completed s') ∧ s'.db = c4State.db)
      ∧ (∃ s1 s2 s3, downloadIter c3MixFetch 0 c4State = IterOut.next s1
          ∧ downloadIter c3MixFetch 0 s1 = IterOut.next s2
          ∧ downloadIter c3MixFetch 0 s2 = IterOut.next s3
          ∧ s2.streak = 2 ∧ s3.streak = 0)
      ∧ (∃ s'', download_all_awards c3EmptyFetch c3NoIntr emptyDB false 0 3
          = Option.some (true, s'')) := by
  refine ⟨C3_end_of_data.1 c3EmptyFetch c3NoIntr 0 c4State 3 (by decide) rfl rfl rfl rfl
      (by rfl) (by rfl) (by rfl),
    C3_end_of_data.2.1 c3MixFetch 0 c4State [c4Award] rfl (by rfl) (by rfl) (by rfl)
      (by decide) (Or.inr (by decide)),
    C3_end_of_data.2.2 c3EmptyFetch c3NoIntr emptyDB false 0 3
      ⟨2000, 3, emptyDB, 0, 2, [0, 1000, 2000]⟩ (by rfl) rfl⟩

/-! ## Claim C2 — resume correctness and completion -/

/-- A standard offset-paginated source built from a fixed record list:
the page at `offset` is the next `BATCH_SIZE` records, and every fetch
succeeds. -/
def pageFetch (src : List PyDict) : Nat → Option (List PyDict) :=
  fun offset => Option.some ((src.drop offset).take BATCH_SIZE)

/-- The loop state carried by an iteration outcome. -/
def iterState : IterOut → HarvestState
  | IterOut.next s => s
  | IterOut.fetchFail s => s
  | IterOut.complete s => s
  | IterOut.dbError s => s

/-- The loop state carried by a loop outcome. -/
def loopState : LoopOutcome → HarvestState
  | LoopOutcome.completed s => s
  | LoopOutcome.fetchAbort s => s
  | LoopOutcome.dbAbort s => s
  | LoopOutcome.interrupted s => s

theorem checkpointWrites_awards (db : DB) (offset t : Nat) :
    (checkpointWrites db offset t).awards = db.awards := by
  unfold checkpointWrites
  split <;> rfl

theorem validate_batch_eq_self (l : List PyDict) (h : ∀ a ∈ l, validAward a = true) :
    validate_batch l = l := by
  rw [validate_batch_eq_filter]
  induction l with
  | nil => rfl
  | cons a rest ih =>
    rw [List.filter_cons, if_pos (h a (List.mem_cons_self _ _)),
      ih (fun b hb => h b (List.mem_cons_of_mem _ hb))]

theorem downloadIter_trace (fetch : Nat → Option (List PyDict)) (t0 : Nat)
    (s : HarvestState) :
    (iterState (downloadIter fetch t0 s)).trace = s.trace ++ [s.offset] := by
  unfold downloadIter
  cases hf : fetch s.offset with
  | none => rfl
  | some page =>
    simp only [downloadStep]
    split
    · split <;> rfl
    · split
      · rfl
      · split <;> rfl

theorem downloadLoop_head_preserved (fetch : Nat → Option (List PyDict))
    (intr : Nat → Bool) (t0 : Nat) :
    ∀ (fuel : Nat) (s : HarvestState) (o : LoopOutcome), s.trace ≠ [] →
      downloadLoop fetch intr t0 fuel s = Option.some o →
      (loopState o).trace.head? = s.trace.head? := by
  intro fuel
  induction fuel with
  | zero => intro s o _ h; exact absurd h (by simp [downloadLoop])
  | succ f ih =>
    intro s o hne h
    unfold downloadLoop at h
    split at h
    · injection h with h'
      rw [← h']
      rfl
    · have happ : ∀ l : List Nat, (s.trace ++ l).head? = s.trace.head? := by
        intro l
        rcases htr : s.trace with _ | ⟨a, rest⟩
        · exact absurd htr hne
        · rfl
      rcases hit : downloadIter fetch t0 s with s1 | s1 | s1 | s1 <;> rw [hit] at h
      · have htr1 : s1.trace = s.trace ++ [s.offset] := by
          have := downloadIter_trace fetch t0 s
          rw [hit] at this
          exact this
        rw [ih s1 o (by simp [htr1]) h, htr1, happ]
      all_goals
        injection h with h'
        rw [← h']
        have htr1 : s1.trace = s.trace ++ [s.offset] := by
          have := downloadIter_trace fetch t0 s
          rw [hit] at this
          exact this
        show s1.trace.head? = s.trace.head?
        rw [htr1, happ]

theorem downloadLoop_first_fetch (fetch : Nat → Option (List PyDict))
    (intr : Nat → Bool) (t0 : Nat) (fuel : Nat) (s : HarvestState) (o : LoopOutcome)
    (htr : s.trace = []) (hintr : intr s.iter = false)
    (h : downloadLoop fetch intr t0 fuel s = Option.some o) :
    (loopState o).trace.head? = Option.some s.offset := by
  cases fuel with
  | zero => exact absurd h (by simp [downloadLoop])
  | succ f =>
    unfold downloadLoop at h
    rw [hintr, if_neg (by simp)] at h
    have htr1 : (iterState (downloadIter fetch t0 s)).trace = [s.offset] := by
      rw [downloadIter_trace, htr]
      rfl
    rcases hit : downloadIter fetch t0 s with s1 | s1 | s1 | s1 <;> rw [hit] at h <;>
      rw [hit] at htr1
    · rw [downloadLoop_head_preserved fetch intr t0 f s1 o (by simp [show s1.trace = [s.offset] from htr1]) h,
        show s1.trace = [s.offset] from htr1]
      rfl
    all_goals
      injection h with h'
      rw [← h']
      show s1.trace.head? = _
      rw [show s1.trace = [s.offset] from htr1]
      rfl

theorem mapM_bindAward (l : List PyDict)
    (h : ∀ a ∈ l, bindAward (_process_award_for_db a) ≠ Option.none) :
    ∃ ds, (l.map _process_award_for_db).mapM bindAward = Option.some ds
      ∧ List.Forall₂ (fun a d => bindAward (_process_award_for_db a) = Option.some d) l ds := by
  induction l with
  | nil => exact ⟨[], rfl, List.Forall₂.nil⟩
  | cons a rest ih =>
    rcases Option.ne_none_iff_exists'.mp (h a (List.mem_cons_self _ _)) with ⟨d, hd⟩
    rcases ih (fun b hb => h b (List.mem_cons_of_mem _ hb)) with ⟨ds, hds, hf⟩
    refine ⟨d :: ds, ?_, List.Forall₂.cons hd hf⟩
    rw [List.map_cons, List.mapM_cons, hd, hds]
    rfl

theorem foldl_upsertRow_append :
    ∀ (rows : List Row) (db : DB),
      (∀ r ∈ rows, (r.identity).1 ≠ PyVal.none ∧ (r.identity).2.1 ≠ PyVal.none
        ∧ (r.identity).2.2 ≠ PyVal.none) →
      (∀ r ∈ rows, r.identity ∉ db.awards.map Row.identity) →
      (rows.map Row.identity).Nodup →
      (rows.foldl upsertRow db).awards = db.awards ++ rows
        ∧ (rows.foldl upsertRow db).metadata = db.metadata := by
  intro rows
  induction rows with
  | nil => intro db _ _ _; exact ⟨(List.append_nil _).symm, rfl⟩
  | cons r rest ih =>
    intro db hnn hdisj hnodup
    have hno : db.awards.filter (fun r0 => ¬ idConflict r0.identity r.identity) = db.awards := by
      rw [List.filter_eq_self]
      intro r0 hr0
      simp only [decide_eq_true_eq]
      intro hc
      have heq : r0.identity = r.identity := by
        simp only [idConflict, Bool.decide_and, Bool.and_eq_true, decide_eq_true_eq] at hc
        obtain ⟨h1, h2, h3, h4, h5, h6⟩ := hc
        exact Prod.ext h2 (Prod.ext h4 h6)
      exact hdisj r (List.mem_cons_self _ _) (heq ▸ List.mem_map_of_mem Row.identity hr0)
    have hup : (upsertRow db r).awards = db.awards ++ [r] := by
      unfold upsertRow
      simp only
      rw [hno]
    have hupm : (upsertRow db r).metadata = db.metadata := rfl
    rw [List.foldl_cons]
    have hrest := ih (upsertRow db r)
      (fun r' hr' => hnn r' (List.mem_cons_of_mem _ hr'))
      (fun r' hr' hmem => by
        rw [hup] at hmem
        rw [List.map_append] at hmem
        rcases List.mem_append.mp hmem with hm | hm
        · exact hdisj r' (List.mem_cons_of_mem _ hr') hm
        · have : r'.identity = r.identity := by simpa using hm
          rw [List.map_cons, List.nodup_cons] at hnodup
          exact hnodup.1 (this ▸ List.mem_map_of_mem Row.identity hr')
      )
      (by rw [List.map_cons, List.nodup_cons] at hnodup; exact hnodup.2)
    refine ⟨?_, ?_⟩
    · rw [hrest.1, hup, List.append_assoc]
      rfl
    · rw [hrest.2, hupm]

theorem forall2_row_ids (t : Nat) : ∀ (l ds : List PyDict),
    List.Forall₂ (fun a d => bindAward (_process_award_for_db a) = Option.some d) l ds →
    (ds.map (fun d => Row.mk d t t)).map Row.identity = l.map awardIdentity := by
  intro l ds hf
  induction hf with
  | nil => rfl
  | cons had hrest ihf =>
    simp only [List.map_cons]
    rw [ihf, bound_row_identity _ _ t t had]

theorem insert_awards_disjoint (batch : List PyDict) (db : DB) (t : Nat)
    (hne : batch ≠ [])
    (hbind : ∀ a ∈ batch, bindAward (_process_award_for_db a) ≠ Option.none)
    (hnn : ∀ a ∈ batch, (awardIdentity a).1 ≠ PyVal.none
      ∧ (awardIdentity a).2.1 ≠ PyVal.none ∧ (awardIdentity a).2.2 ≠ PyVal.none)
    (hdisj : ∀ a ∈ batch, awardIdentity a ∉ db.awards.map Row.identity)
    (hnodup : (batch.map awardIdentity).Nodup) :
    ∃ db', insert_awards batch db t = Option.some (db', batch.length)
      ∧ db'.awards.map Row.identity = db.awards.map Row.identity ++ batch.map awardIdentity
      ∧ db'.metadata = db.metadata := by
  rcases mapM_bindAward batch hbind with ⟨ds, hds, hf⟩
  have hrowids : (ds.map (fun d => Row.mk d t t)).map Row.identity
      = batch.map awardIdentity := forall2_row_ids t batch ds hf
  have hfold := foldl_upsertRow_append (ds.map (fun d => Row.mk d t t)) db
    (by
      intro r hr
      have hmem : r.identity ∈ batch.map awardIdentity := by
        rw [← hrowids]
        exact List.mem_map_of_mem Row.identity hr
      rcases List.mem_map.mp hmem with ⟨a, ha, hid⟩
      rw [← hid]
      exact hnn a ha)
    (by
      intro r hr hmem
      have hmem2 : r.identity ∈ batch.map awardIdentity := by
        rw [← hrowids]
        exact List.mem_map_of_mem Row.identity hr
      rcases List.mem_map.mp hmem2 with ⟨a, ha, hid⟩
      exact hdisj a ha (hid ▸ hmem))
    (by rw [hrowids]; exact hnodup)
  refine ⟨(ds.map (fun d => Row.mk d t t)).foldl upsertRow db, ?_, ?_, hfold.2⟩
  · unfold insert_awards
    rw [if_neg (by simpa using hne), hds]
  · rw [hfold.1, List.map_append, hrowids]

theorem downloadLoop_complete (src : List PyDict) (intr : Nat → Bool) (t0 : Nat)
    (hvalid : ∀ a ∈ src, validAward a = true)
    (hbind : ∀ a ∈ src, bindAward (_process_award_for_db a) ≠ Option.none)
    (hnn : ∀ a ∈ src, (awardIdentity a).1 ≠ PyVal.none
      ∧ (awardIdentity a).2.1 ≠ PyVal.none ∧ (awardIdentity a).2.2 ≠ PyVal.none)
    (hnodup : (src.map awardIdentity).Nodup)
    (hintr : ∀ i, intr i = false) :
    ∀ (fuel : Nat) (s : HarvestState),
      s.offset ≤ src.length → s.streak = 0 →
      s.db.awards.map Row.identity = (src.map awardIdentity).take s.offset →
      src.length - s.offset + 3 ≤ fuel →
      ∃ s', downloadLoop (pageFetch src) intr t0 fuel s
          = Option.some (LoopOutcome.completed s')
        ∧ s'.db.awards.map Row.identity = src.map awardIdentity := by
  intro fuel
  induction fuel using Nat.strong_induction_on with
  | _ fuel IH =>
    intro s hoff hstreak hids hfuel
    rcases fuel with _ | f
    · omega
    · by_cases hlt : s.offset < src.length
      · -- a non-empty page remains
        have hplen : ((src.drop s.offset).take BATCH_SIZE).length
            = min BATCH_SIZE (src.length - s.offset) := by
          rw [List.length_take, List.length_drop]
        have hpos : 0 < ((src.drop s.offset).take BATCH_SIZE).length := by
          rw [hplen]
          exact lt_min (by decide) (by omega)
        have hsub : ∀ a ∈ (src.drop s.offset).take BATCH_SIZE, a ∈ src := fun a ha =>
          List.mem_of_mem_drop (List.mem_of_mem_take ha)
        have hvb : validate_batch ((src.drop s.offset).take BATCH_SIZE)
            = (src.drop s.offset).take BATCH_SIZE :=
          validate_batch_eq_self _ (fun a ha => hvalid a (hsub a ha))
        have hpagene : (src.drop s.offset).take BATCH_SIZE ≠ [] := by
          intro hc
          rw [hc] at hpos
          simp at hpos
        have hpageids : ((src.drop s.offset).take BATCH_SIZE).map awardIdentity
            = ((src.map awardIdentity).drop s.offset).take BATCH_SIZE := by
          rw [List.map_take, List.map_drop]
        have hdisj : ∀ a ∈ (src.drop s.offset).take BATCH_SIZE,
            awardIdentity a ∉ s.db.awards.map Row.identity := by
          intro a ha hmem
          rw [hids] at hmem
          have hmem2 : awardIdentity a ∈ (src.map awardIdentity).drop s.offset := by
            have h1 : awardIdentity a
                ∈ ((src.drop s.offset).take BATCH_SIZE).map awardIdentity :=
              List.mem_map_of_mem _ ha
            rw [hpageids] at h1
            exact List.mem_of_mem_take h1
          have hnd := hnodup
          rw [← List.take_append_drop s.offset (src.map awardIdentity),
            List.nodup_append] at hnd
          exact hnd.2.2 hmem hmem2
        have hnodup_page : (((src.drop s.offset).take BATCH_SIZE).map awardIdentity).Nodup := by
          rw [hpageids]
          exact hnodup.sublist ((List.take_sublist _ _).trans (List.drop_sublist _ _))
        obtain ⟨db', hins, hids', hmd'⟩ := insert_awards_disjoint
          ((src.drop s.offset).take BATCH_SIZE) s.db (t0 + s.iter) hpagene
          (fun a ha => hbind a (hsub a ha)) (fun a ha => hnn a (hsub a ha)) hdisj hnodup_page
        have estep : downloadIter (pageFetch src) t0 s
            = IterOut.next ⟨s.offset + ((src.drop s.offset).take BATCH_SIZE).length, 0,
                checkpointWrites db'
                  (s.offset + ((src.drop s.offset).take BATCH_SIZE).length) (t0 + s.iter),
                s.total + ((src.drop s.offset).take BATCH_SIZE).length, s.iter + 1,
                s.trace ++ [s.offset]⟩ := by
          unfold downloadIter
          rw [show pageFetch src s.offset
            = Option.some ((src.drop s.offset).take BATCH_SIZE) from rfl]
          simp only [downloadStep]
          rw [if_neg (by omega), hvb, if_neg (by simp [hpagene]), hins]
        obtain ⟨s', hloop', hids''⟩ := IH f (by omega)
          ⟨s.offset + ((src.drop s.offset).take BATCH_SIZE).length, 0,
            checkpointWrites db'
              (s.offset + ((src.drop s.offset).take BATCH_SIZE).length) (t0 + s.iter),
            s.total + ((src.drop s.offset).take BATCH_SIZE).length, s.iter + 1,
            s.trace ++ [s.offset]⟩
          (by show s.offset + _ ≤ _; omega) rfl
          (by
            show (checkpointWrites db' _ _).awards.map Row.identity = _
            rw [checkpointWrites_awards, hids', hids, hpageids, List.take_add]
            congr 1
            rw [List.take_eq_take]
            have hdl : ((src.map awardIdentity).drop s.offset).length
                = src.length - s.offset := by
              rw [List.length_drop, List.length_map]
            rw [hdl]
            omega)
          (by show src.length - (s.offset + _) + 3 ≤ f; omega)
        refine ⟨s', ?_, hids''⟩
        show downloadLoop (pageFetch src) intr t0 (f + 1) s = _
        unfold downloadLoop
        rw [hintr s.iter, if_neg (by simp), estep]
        exact hloop'
      · -- the source is exhausted: three empty pages complete the run
        have hoffeq : s.offset = src.length := by omega
        have hemp : ∀ k, src.length ≤ k → pageFetch src k = Option.some [] := by
          intro k hk
          unfold pageFetch
          rw [List.drop_eq_nil_of_le hk]
          rfl
        have e1 : downloadIter (pageFetch src) t0 s
            = IterOut.next ⟨s.offset + BATCH_SIZE, s.streak + 1, s.db, s.total,
                s.iter + 1, s.trace ++ [s.offset]⟩ := by
          unfold downloadIter
          rw [hemp s.offset (by omega)]
          simp only [downloadStep]
          rw [if_pos (show ([] : List PyDict).length = 0 from rfl), if_neg (by omega)]
        have e2 : downloadIter (pageFetch src) t0
              (⟨s.offset + BATCH_SIZE, s.streak + 1, s.db, s.total,
                s.iter + 1, s.trace ++ [s.offset]⟩ : HarvestState)
            = IterOut.next ⟨s.offset + BATCH_SIZE + BATCH_SIZE, s.streak + 1 + 1, s.db,
                s.total, s.iter + 1 + 1,
                (s.trace ++ [s.offset]) ++ [s.offset + BATCH_SIZE]⟩ := by
          unfold downloadIter
          rw [hemp (s.offset + BATCH_SIZE) (by omega)]
          simp only [downloadStep]
          rw [if_pos (show ([] : List PyDict).length = 0 from rfl), if_neg (by omega)]
        have e3 : downloadIter (pageFetch src) t0
              (⟨s.offset + BATCH_SIZE + BATCH_SIZE, s.streak + 1 + 1, s.db, s.total,
                s.iter + 1 + 1,
                (s.trace ++ [s.offset]) ++ [s.offset + BATCH_SIZE]⟩ : HarvestState)
            = IterOut.complete ⟨s.offset + BATCH_SIZE + BATCH_SIZE, s.streak + 1 + 1 + 1,
                s.db, s.total, s.iter + 1 + 1,
                ((s.trace ++ [s.offset]) ++ [s.offset + BATCH_SIZE])
                  ++ [s.offset + BATCH_SIZE + BATCH_SIZE]⟩ := by
          unfold downloadIter
          rw [hemp (s.offset + BATCH_SIZE + BATCH_SIZE) (by omega)]
          simp only [downloadStep]
          rw [if_pos (show ([] : List PyDict).length = 0 from rfl), if_pos (by omega)]
        obtain ⟨n, hn⟩ : ∃ n, f + 1 = n + 3 := ⟨f - 2, by omega⟩
        rw [hn]
        refine ⟨⟨s.offset + BATCH_SIZE + BATCH_SIZE, s.streak + 1 + 1 + 1, s.db, s.total,
          s.iter + 1 + 1,
          ((s.trace ++ [s.offset]) ++ [s.offset + BATCH_SIZE])
            ++ [s.offset + BATCH_SIZE + BATCH_SIZE]⟩, ?_, ?_⟩
        · show downloadLoop (pageFetch src) intr t0 (n + 2 + 1) s = _
          unfold downloadLoop
          rw [hintr s.iter, if_neg (by simp), e1]
          show downloadLoop (pageFetch src) intr t0 (n + 1 + 1) _ = _
          unfold downloadLoop
          rw [hintr (s.iter + 1), if_neg (by simp), e2]
          show downloadLoop (pageFetch src) intr t0 (n + 0 + 1) _ = _
          unfold downloadLoop
          rw [hintr (s.iter + 1 + 1), if_neg (by simp), e3]
        · show s.db.awards.map Row.identity = _
          rw [hids, hoffeq,
            show src.length = (src.map awardIdentity).length from (List.length_map _ _).symm,
            List.take_length]

theorem set_metadata_awards (db : DB) (k v : String) :
    (set_metadata db k v).awards = db.awards := rfl

/-- C2 — (i) for every prior database state holding N > 0 records, a full
harvest started with resume enabled issues its first page fetch at offset
N (the head of the fetch-offset trace of any finished run equals the
stored record count); (ii) against an unchanged standard paginated source
(every record valid, bindable, with pairwise-distinct non-NULL identity
triples) whose first N records produced the prior state, a resumed run
reaches the three-empty-page completion signal, reports success, and the
final stored record count equals the source's total record count. -/
theorem C2_resume_correctness :
    (∀ (fetch : Nat → Option (List PyDict)) (intr : Nat → Bool) (db0 : DB)
        (t0 fuel : Nat) (b : Bool) (sF : HarvestState),
        0 < get_record_count db0 → intr 0 = false →
        download_all_awards fetch intr db0 true t0 fuel = Option.some (b, sF) →
        sF.trace.head? = Option.some (get_record_count db0))
      ∧ (∀ (src : List PyDict) (N m t' t0 fuel : Nat) (db0 : DB) (intr : Nat → Bool),
          (∀ a ∈ src, validAward a = true) →
          (∀ a ∈ src, bindAward (_process_award_for_db a) ≠ Option.none) →
          (∀ a ∈ src, (awardIdentity a).1 ≠ PyVal.none
            ∧ (awardIdentity a).2.1 ≠ PyVal.none ∧ (awardIdentity a).2.2 ≠ PyVal.none) →
          (src.map awardIdentity).Nodup →
          (∀ i, intr i = false) →
          0 < N → N ≤ src.length →
          insert_awards (src.take N) emptyDB t' = Option.some (db0, m) →
          src.length - N + 3 ≤ fuel →
          ∃ sF, download_all_awards (pageFetch src) intr db0 true t0 fuel
              = Option.some (true, sF)
            ∧ get_record_count sF.db = src.length
            ∧ sF.trace.head? = Option.some N) := by
  have hpart1 : ∀ (fetch : Nat → Option (List PyDict)) (intr : Nat → Bool) (db0 : DB)
      (t0 fuel : Nat) (b : Bool) (sF : HarvestState),
      0 < get_record_count db0 → intr 0 = false →
      download_all_awards fetch intr db0 true t0 fuel = Option.some (b, sF) →
      sF.trace.head? = Option.some (get_record_count db0) := by
    intro fetch intr db0 t0 fuel b sF h0 hi h
    unfold download_all_awards at h
    dsimp only at h
    rw [if_pos (show (true = true) ∧ 0 < get_record_count db0 from ⟨rfl, h0⟩)] at h
    split at h
    · exact absurd h (by simp)
    case h_2 s1 heq =>
      have hhead := downloadLoop_first_fetch fetch intr t0 fuel _ _ rfl hi heq
      injection h with h'
      have h2 : s1 = sF := congrArg Prod.snd h'
      rw [← h2]
      exact hhead
    case h_3 s1 heq =>
      have hhead := downloadLoop_first_fetch fetch intr t0 fuel _ _ rfl hi heq
      injection h with h'
      have h2 : s1 = sF := congrArg Prod.snd h'
      rw [← h2]
      exact hhead
    case h_4 s1 heq =>
      have hhead := downloadLoop_first_fetch fetch intr t0 fuel _ _ rfl hi heq
      split at h <;>
      · injection h with h'
        have h2 := congrArg Prod.snd h'
        rw [← (show _ = sF from h2)]
        exact hhead
    case h_5 s1 heq =>
      have hhead := downloadLoop_first_fetch fetch intr t0 fuel _ _ rfl hi heq
      injection h with h'
      have h2 := congrArg Prod.snd h'
      rw [← (show _ = sF from h2)]
      exact hhead
  refine ⟨hpart1, ?_⟩
  intro src N m t' t0 fuel db0 intr hvalid hbind hnn hnodup hintr hN0 hNle hprior hfuel
  have htakene : src.take N ≠ [] := by
    intro hc
    have hl := congrArg List.length hc
    rw [List.length_take] at hl
    simp only [List.length_nil] at hl
    omega
  have hids0 : db0.awards.map Row.identity = (src.map awardIdentity).take N := by
    obtain ⟨db'', hins'', hids'', hmd''⟩ := insert_awards_disjoint (src.take N) emptyDB t'
      htakene
      (fun a ha => hbind a (List.mem_of_mem_take ha))
      (fun a ha => hnn a (List.mem_of_mem_take ha))
      (fun a _ hm => by simp [emptyDB] at hm)
      (by rw [List.map_take]; exact hnodup.sublist (List.take_sublist _ _))
    rw [hprior] at hins''
    injection hins'' with h2
    have hdb : db0 = db'' := congrArg Prod.fst h2
    rw [hdb, hids'']
    show ([] : List (PyVal × PyVal × PyVal)) ++ _ = _
    rw [List.nil_append, List.map_take]
  have hcount : get_record_count db0 = N := by
    have hl := congrArg List.length hids0
    rw [List.length_map, List.length_take, List.length_map] at hl
    show db0.awards.length = N
    omega
  obtain ⟨s', hloop, hidsF⟩ := downloadLoop_complete src intr t0 hvalid hbind hnn hnodup hintr
    fuel ⟨get_record_count db0, 0, db0, get_record_count db0, 0, []⟩
    (by show get_record_count db0 ≤ _; omega)
    rfl
    (by show db0.awards.map Row.identity = (src.map awardIdentity).take (get_record_count db0)
        rw [hcount]
        exact hids0)
    (by show src.length - get_record_count db0 + 3 ≤ fuel; omega)
  have hlenF : s'.db.awards.length = src.length := by
    have hl := congrArg List.length hidsF
    rw [List.length_map, List.length_map] at hl
    exact hl
  have hwrap : download_all_awards (pageFetch src) intr db0 true t0 fuel
      = Option.some (true,
          ⟨s'.offset, s'.streak,
            set_metadata (set_metadata (set_metadata s'.db
              "initial_download_completed" (toString (t0 + s'.iter)))
              "total_records_downloaded" (toString s'.total))
              "download_interrupted" "false",
            s'.total, s'.iter, s'.trace⟩) := by
    unfold download_all_awards
    dsimp only
    rw [if_pos (show (true = true) ∧ 0 < get_record_count db0 from ⟨rfl, by omega⟩), hloop]
    dsimp only
    rw [hintr s'.iter]
    rw [if_neg (by simp)]
  refine ⟨_, hwrap, ?_, ?_⟩
  · show (set_metadata _ _ _).awards.length = src.length
    rw [set_metadata_awards, set_metadata_awards, set_metadata_awards]
    exact hlenF
  · have hthis := hpart1 (pageFetch src) intr db0 t0 fuel true _ (by omega) (hintr 0) hwrap
    show s'.trace.head? = Option.some N
    rw [show s'.trace.head? = Option.some (get_record_count db0) from hthis, hcount]

def c2Src : List PyDict :=
  [mkAward (PyVal.str "C2A") (PyVal.str "NSF") (PyVal.str "T2A") (PyVal.str "5"),
   mkAward (PyVal.str "C2B") (PyVal.str "NSF") (PyVal.str "T2B") (PyVal.str "5")]

def c2NoIntr : Nat → Bool := fun _ => false

/-- The prior state produced by harvesting the first record of the
source. -/
def c2PriorDB : DB := ((insert_awards (c2Src.take 1) emptyDB 0).getD (emptyDB, 0)).1

theorem C2_resume_correctness_witness :
    ∃ sF, download_all_awards (pageFetch c2Src) c2NoIntr c2PriorDB true 0 10
        = Option.some (true, sF)
      ∧ get_record_count sF.db = c2Src.length
      ∧ sF.trace.head? = Option.some 1 :=
  C2_resume_correctness.2 c2Src 1 1 0 0 10 c2PriorDB c2NoIntr
    (by decide) (by decide) (by decide) (by decide) (fun _ => rfl)
    (by decide) (by decide) (by rfl) (by decide)
